import Mathlib

/-!
# Verification of the CoW block-storage stack

Shallow embedding of the simulated ZFS-like storage stack:
device state machines, physical devices, stripe/mirror virtual
devices, the virtual-physical block mapping, snapshots, and the
storage pool's copy-on-write engine.  Byte strings are modelled as
`List Nat`, Python dictionaries as association lists (first match
wins, insertion order preserved), and Python exceptions as `Except`
errors.
-/

namespace CowFS

/-- Semantic error kinds (§7 of the design): Python `ValueError`s are
mapped onto their semantic names; `keyError` and `indexError` stand
for raw Python `KeyError`/`IndexError` escapes. -/
inductive Err where
  | outOfRange
  | badSize
  | notOnline
  | missing
  | alreadyMapped
  | poolFull
  | corruption
  | quarantineFailed
  | valueError
  | keyError
  | indexError
  deriving DecidableEq, Repr

/-! ## Device states (DeviceState.py) -/

/-- Physical device states. -/
inductive PState where
  | online
  | offline
  | faulted
  | faultedOffline
  | disconnected
  deriving DecidableEq, Repr

/-- Virtual device states. -/
inductive VState where
  | online
  | offline
  | faulted
  | faultedOffline
  | degraded
  deriving DecidableEq, Repr

/-- `isinstance(state, DeviceOnlineMixin)` for physical states:
only `PhysicalDeviceOnline` derives the online mixin. -/
def PState.isOnlineMixin : PState → Bool
  | .online => true
  | _ => false

/-- `isinstance(state, DeviceOfflineMixin)` for physical states:
`Offline`, `FaultedOffline` and `Disconnected` derive the offline mixin. -/
def PState.isOfflineMixin : PState → Bool
  | .offline | .faultedOffline | .disconnected => true
  | _ => false

/-- `isinstance(state, DeviceFaultedMixin)` for physical states:
`Faulted` and `FaultedOffline` derive the faulted mixin. -/
def PState.isFaultedMixin : PState → Bool
  | .faulted | .faultedOffline => true
  | _ => false

/-- `PhysicalDevice*.transition_to`: each state accepts the targets
listed in its `_check_transition` call and otherwise stays put. -/
def PState.transitionTo : PState → PState → PState
  | .online, t => match t with
    | .offline | .faulted => t
    | _ => .online
  | .offline, t => match t with
    | .online | .disconnected => t
    | _ => .offline
  | .faulted, t => match t with
    | .faultedOffline | .online => t
    | _ => .faulted
  | .faultedOffline, t => match t with
    | .faulted => t
    | _ => .faultedOffline
  | .disconnected, t => match t with
    | .offline | .faultedOffline => t
    | _ => .disconnected

/-- `isinstance(state, DeviceOnlineMixin)` for virtual states. -/
def VState.isOnlineMixin : VState → Bool
  | .online => true
  | _ => false

/-- `isinstance(state, DeviceOfflineMixin)` for virtual states. -/
def VState.isOfflineMixin : VState → Bool
  | .offline | .faultedOffline => true
  | _ => false

/-- `isinstance(state, DeviceFaultedMixin)` for virtual states. -/
def VState.isFaultedMixin : VState → Bool
  | .faulted | .faultedOffline => true
  | _ => false

/-- `VirtualDevice*.transition_to`. -/
def VState.transitionTo : VState → VState → VState
  | .online, t => match t with
    | .offline | .faulted | .degraded => t
    | _ => .online
  | .offline, t => match t with
    | .online | .faulted | .degraded => t
    | _ => .offline
  | .faulted, t => match t with
    | .faultedOffline | .online | .degraded => t
    | _ => .faulted
  | .faultedOffline, t => match t with
    | .faulted => t
    | _ => .faultedOffline
  | .degraded, t => match t with
    | .offline | .online | .faulted => t
    | _ => .degraded

/-! ## PhysicalDevice (PhysicalDevice.py) -/

/-- `PhysicalDevice`: a fixed byte store split into equal blocks.
`data` models the `bytearray` (one `Nat` per byte). -/
structure PhysicalDevice where
  size : Nat
  blockSize : Nat
  data : List Nat
  state : PState
  deriving DecidableEq, Repr

/-- `PhysicalDevice.transition_state`: run the state machine, report
whether the post-transition state is the desired one. -/
def pTransitionState (d : PhysicalDevice) (desired : PState) :
    PhysicalDevice × Bool :=
  let st := d.state.transitionTo desired
  ({ d with state := st }, decide (st = desired))

/-- `PhysicalDevice.attempt_bring_online`. -/
def pAttemptBringOnline (d : PhysicalDevice) : PhysicalDevice × Bool :=
  pTransitionState d .online

/-- `PhysicalDevice.mark_faulted`: request `Faulted` if the state is
an online mixin, otherwise request `FaultedOffline`. -/
def pMarkFaulted (d : PhysicalDevice) : PhysicalDevice × Bool :=
  if d.state.isOnlineMixin then pTransitionState d .faulted
  else pTransitionState d .faultedOffline

/-- `PhysicalDevice.read_block`: range check, then the source's
`self._state == PhysicalDeviceOffline()` check (class equality, so
only the exact `Offline` state is rejected), then the byte slice. -/
def pReadBlock (d : PhysicalDevice) (bn : Nat) : Except Err (List Nat) :=
  if d.size / d.blockSize ≤ bn then .error .outOfRange
  else if d.state = .offline then .error .notOnline
  else .ok ((d.data.drop (bn * d.blockSize)).take d.blockSize)

/-- The byte slice `read_block` returns when it succeeds. -/
def pReadData (d : PhysicalDevice) (bn : Nat) : List Nat :=
  (d.data.drop (bn * d.blockSize)).take d.blockSize

/-- Slice assignment `data[a*bs:(a+1)*bs] = new` of an equal-length
payload. -/
def spliceData (old : List Nat) (off : Nat) (new : List Nat) : List Nat :=
  old.take off ++ new ++ old.drop (off + new.length)

/-- `PhysicalDevice.write_block`: size check, range check, exact
`Offline` check, then overwrite the slice and return success. -/
def pWriteBlock (d : PhysicalDevice) (bn : Nat) (data : List Nat) :
    Except Err PhysicalDevice :=
  if data.length ≠ d.blockSize then .error .badSize
  else if d.size / d.blockSize ≤ bn then .error .outOfRange
  else if d.state = .offline then .error .notOnline
  else .ok { d with data := spliceData d.data (bn * d.blockSize) data }

/-! ## Association lists: Python `dict` semantics

A Python `dict` is an insertion-ordered map.  `d[k] = v` overwrites
in place when `k` is present and appends otherwise; `d.pop(k)`
removes the entry; iteration follows the list order. -/

/-- `d.get(k)` / `d[k]`-lookup: first entry with the key. -/
def alistLookup {α : Type} [DecidableEq α] {β : Type} :
    List (α × β) → α → Option β
  | [], _ => none
  | (k, v) :: rest, key => if k = key then some v else alistLookup rest key

/-- `d[k] = v`: overwrite the entry in place, else append. -/
def alistInsert {α : Type} [DecidableEq α] {β : Type} :
    List (α × β) → α → β → List (α × β)
  | [], key, val => [(key, val)]
  | (k, v) :: rest, key, val =>
    if k = key then (key, val) :: rest
    else (k, v) :: alistInsert rest key val

/-- `d.pop(k)`: drop the entry with the key. -/
def alistErase {α : Type} [DecidableEq α] {β : Type} :
    List (α × β) → α → List (α × β)
  | [], _ => []
  | (k, v) :: rest, key =>
    if k = key then rest else (k, v) :: alistErase rest key

/-! ## PhysicalVirtualBlockMapping (PhysicalVirtualBlockMapping.py)

Devices are identified by their index in the owning pool's device
list; `p2v` models `_physical_to_virtual_map` (device → {physical
block → virtual block}) and `v2p` models `_virtual_to_physical_map`
(virtual block → (device, physical block)). -/

structure PVMapping where
  p2v : List (Nat × List (Nat × Nat))
  v2p : List (Nat × (Nat × Nat))
  deriving DecidableEq, Repr

/-- `check_virtual_block`. -/
def checkVirtualBlock (m : PVMapping) (vb : Nat) : Bool :=
  (alistLookup m.v2p vb).isSome

/-- `check_physical_block`: `pb in p2v.get(device, {})`. -/
def checkPhysicalBlock (m : PVMapping) (dev pb : Nat) : Bool :=
  match alistLookup m.p2v dev with
  | some dm => (alistLookup dm pb).isSome
  | none => false

/-- `get_physical_block` (raises `KeyError` when unmapped, modelled
as `none`). -/
def getPhysicalBlock (m : PVMapping) (vb : Nat) : Option (Nat × Nat) :=
  alistLookup m.v2p vb

/-- `enroll_mapping`: reject a collision on either side, create the
device's inner dict if needed, then bind both directions. -/
def enrollMapping (m : PVMapping) (dev pb vb : Nat) : Except Err PVMapping :=
  if checkVirtualBlock m vb then .error .alreadyMapped
  else if checkPhysicalBlock m dev pb then .error .alreadyMapped
  else
    let p2v0 := if (alistLookup m.p2v dev).isSome then m.p2v
      else alistInsert m.p2v dev []
    let dm := (alistLookup p2v0 dev).getD []
    .ok ⟨alistInsert p2v0 dev (alistInsert dm pb vb),
         alistInsert m.v2p vb (dev, pb)⟩

/-- `update_mapping`: after the two precondition checks the source
sets `v2p[vb]`, then executes
`self._physical_to_virtual_map[new_device][new_physical_block] = vb`
(plain indexing: a `KeyError` escapes when `new_device` has no inner
dict, unlike `enroll_mapping` which guards this case), then pops the
old slot from the old device's inner dict. -/
def updateMapping (m : PVMapping) (vb dev' pb' : Nat) :
    Except Err ((Nat × Nat) × PVMapping) :=
  if ¬ checkVirtualBlock m vb then .error .missing
  else if checkPhysicalBlock m dev' pb' then .error .alreadyMapped
  else
    match alistLookup m.v2p vb with
    | none => .error .keyError
    | some (od, opb) =>
      let v2p1 := alistInsert m.v2p vb (dev', pb')
      match alistLookup m.p2v dev' with
      | none => .error .keyError
      | some dm' =>
        let p2v1 := alistInsert m.p2v dev' (alistInsert dm' pb' vb)
        match alistLookup p2v1 od with
        | none => .error .keyError
        | some odm =>
          match alistLookup odm opb with
          | none => .error .keyError
          | some _ =>
            .ok ((od, opb), ⟨alistInsert p2v1 od (alistErase odm opb), v2p1⟩)

/-- `unenroll_mapping`: fail when the virtual block is unmapped, pop
both directions. -/
def unenrollMapping (m : PVMapping) (vb : Nat) : Except Err PVMapping :=
  match alistLookup m.v2p vb with
  | none => .error .missing
  | some (dev, pb) =>
    match alistLookup m.p2v dev with
    | none => .error .keyError
    | some dm =>
      match alistLookup dm pb with
      | none => .error .keyError
      | some _ =>
        .ok ⟨alistInsert m.p2v dev (alistErase dm pb), alistErase m.v2p vb⟩

/-- `get_virtual_block_usage_set`: the mapped virtual blocks. -/
def getVirtualBlockUsageSet (m : PVMapping) : List Nat :=
  m.v2p.map Prod.fst

/-- `get_physical_block_usage_sets`: device → keys of its inner dict. -/
def getPhysicalBlockUsageSets (m : PVMapping) : List (Nat × List Nat) :=
  m.p2v.map (fun e => (e.1, e.2.map Prod.fst))

/-! ## VirtualDevice common behaviour (VirtualDevice.py)

Children are physical devices (the shape every scenario of the spec
builds).  A write intent is a pair (block number, payload). -/

/-- `VirtualDevice._attempt_state_update`: no-op success when the
state already equals the desired one, else run the transition and
report whether it took. -/
def vAttemptStateUpdate (st desired : VState) : VState × Bool :=
  if st = desired then (st, true)
  else
    let st' := st.transitionTo desired
    (st', decide (st' = desired))

/-- `VirtualDevice.mark_faulted`: request `Faulted` from an online
mixin state, `FaultedOffline` from an offline mixin state, no-op
otherwise. -/
def vMarkFaulted (st : VState) : VState × Bool :=
  if st.isOnlineMixin then vAttemptStateUpdate st .faulted
  else if st.isOfflineMixin then vAttemptStateUpdate st .faultedOffline
  else (st, false)

/-- `VirtualDevice.self_check_state` over physical children: the four
rules evaluated in order, with the `Degraded` fallback assigned
directly. -/
def selfCheckState (devices : List PhysicalDevice)
    (intents : List (Nat × List Nat)) (st : VState) : VState :=
  if (devices.all fun d => d.state.isOnlineMixin) ∧
      ¬ (devices.any fun d => d.state.isFaultedMixin) ∧
      intents.length = 0 then
    (vAttemptStateUpdate st .online).1
  else if (devices.all fun d => d.state.isOfflineMixin) ∧
      ¬ (devices.any fun d => d.state.isFaultedMixin) then
    (vAttemptStateUpdate st .offline).1
  else if (devices.any fun d => d.state.isFaultedMixin) ∨
      0 < intents.length then
    if devices.all fun d => d.state.isOfflineMixin then
      (vAttemptStateUpdate st .faultedOffline).1
    else
      (vAttemptStateUpdate st .faulted).1
  else
    .degraded

/-! ## VirtualDeviceMirror (VirtualDevice.py) -/

/-- `VirtualDeviceMirror`: children share size and block size; the
write-intent queue and the `_skip_write_intents` replay guard live on
the base class. -/
structure VirtualDeviceMirror where
  devices : List PhysicalDevice
  blockSize : Nat
  size : Nat
  state : VState
  writeIntents : List (Nat × List Nat)
  skipWriteIntents : Bool
  deriving DecidableEq, Repr

/-- Read every child at one block, stopping at the first raised
error (`[d.read_block(bn) for d in devices]`). -/
def readChildren (bn : Nat) : List PhysicalDevice → Except Err (List (List Nat))
  | [] => .ok []
  | d :: rest =>
    match pReadBlock d bn with
    | .error e => .error e
    | .ok v =>
      match readChildren bn rest with
      | .error e => .error e
      | .ok vs => .ok (v :: vs)

/-- The frequency dict `freqs[d] = freqs.get(d, 0) + 1` built over a
list of reads: keys in first-occurrence order with their counts. -/
def freqList (l : List (List Nat)) : List (List Nat × Nat) :=
  l.foldl (fun fl v => alistInsert fl v ((alistLookup fl v).getD 0 + 1)) []

/-- `max(freqs.values())` (Python raises on an empty dict; `0` is
returned here and every use below guards non-emptiness). -/
def maxFreq (fl : List (List Nat × Nat)) : Nat :=
  (fl.map Prod.snd).foldl Nat.max 0

/-- `[d for d in freqs if freqs[d] == highest]`: the values achieving
the maximal count, in first-occurrence order. -/
def mostCommon (l : List (List Nat)) : List (List Nat) :=
  let fl := freqList l
  (fl.filter fun e => e.2 = maxFreq fl).map Prod.fst

/-- The repair loop body of `check_integrity` for one child: re-read,
mark divergent children faulted, optionally rewrite the majority
value and re-read to validate the repair.  Returns the updated child
and whether this child leaves `repair_successful` intact. -/
def repairChild (bn : Nat) (best : List Nat) (repair : Bool)
    (d : PhysicalDevice) : Except Err (PhysicalDevice × Bool) :=
  match pReadBlock d bn with
  | .error e => .error e
  | .ok v =>
    if v ≠ best then
      let d1 := (pMarkFaulted d).1
      if repair then
        match pWriteBlock d1 bn best with
        | .error e => .error e
        | .ok d2 =>
          match pReadBlock d2 bn with
          | .error e => .error e
          | .ok v2 => .ok (d2, v2 = best)
      else .ok (d1, true)
    else
      if repair then
        match pReadBlock d bn with
        | .error e => .error e
        | .ok v2 => .ok (d, v2 = best)
      else .ok (d, true)

/-- The repair loop of `check_integrity` over all children, folding
`repair_successful` (starts `True`, cleared by any failing re-read). -/
def repairLoop (bn : Nat) (best : List Nat) (repair : Bool) :
    List PhysicalDevice → Except Err (List PhysicalDevice × Bool)
  | [] => .ok ([], true)
  | d :: rest =>
    match repairChild bn best repair d with
    | .error e => .error e
    | .ok (d', okd) =>
      match repairLoop bn best repair rest with
      | .error e => .error e
      | .ok (rest', okr) => .ok (d' :: rest', okd && okr)

/-- `VirtualDeviceMirror.check_integrity`: read every child; if all
reads agree succeed; otherwise mark the vdev faulted, find the
majority value, mark (and with `repair` rewrite) the divergent
children, and report whether every child now holds the majority
value.  The mutated mirror is returned in every case. -/
def checkIntegrity (m : VirtualDeviceMirror) (bn : Nat) (repair : Bool) :
    Except Err Bool × VirtualDeviceMirror :=
  match readChildren bn m.devices with
  | .error e => (.error e, m)
  | .ok reads =>
    let fl := freqList reads
    if fl.length = 1 then (.ok true, m)
    else
      let m1 := { m with state := (vMarkFaulted m.state).1 }
      match fl with
      | [] => (.error .valueError, m1)
      | _ :: _ =>
        match mostCommon reads with
        | [best] =>
          match repairLoop bn best repair m1.devices with
          | .error e => (.error e, m1)
          | .ok (ds', okAll) =>
            let m2 := { m1 with devices := ds' }
            if repair && okAll then (.ok true, m2)
            else (.ok false, m2)
        | _ => (.ok false, m1)

/-- The fault-marking loop of `VirtualDeviceMirror.read_block`: every
child whose read differs from the chosen value (all of them when no
majority exists) is marked faulted, and a child that cannot be
quarantined is a fatal error. -/
def markDivergent (final : Option (List Nat)) :
    List (PhysicalDevice × List Nat) → Except Err (List PhysicalDevice)
  | [] => .ok []
  | (d, v) :: rest =>
    if some v ≠ final then
      let (d', success) := pMarkFaulted d
      if success then
        match markDivergent final rest with
        | .error e => .error e
        | .ok rest' => .ok (d' :: rest')
      else .error .quarantineFailed
    else
      match markDivergent final rest with
      | .error e => .error e
      | .ok rest' => .ok (d :: rest')

/-- `VirtualDeviceMirror.read_block`: integrity check first; on
agreement return child 0's value, otherwise transition toward
`Faulted`, take a majority vote over fresh reads, quarantine the
divergent children and return the majority value, failing with
`Corruption` when no unique majority exists. -/
def mirrorReadBlock (m : VirtualDeviceMirror) (bn : Nat) :
    Except Err (List Nat) × VirtualDeviceMirror :=
  match checkIntegrity m bn false with
  | (.error e, m1) => (.error e, m1)
  | (.ok true, m1) =>
    match m1.devices with
    | [] => (.error .indexError, m1)
    | d0 :: _ =>
      match pReadBlock d0 bn with
      | .error e => (.error e, m1)
      | .ok v => (.ok v, m1)
  | (.ok false, m1) =>
    let m2 := { m1 with state := (vAttemptStateUpdate m1.state .faulted).1 }
    match readChildren bn m2.devices with
    | .error e => (.error e, m2)
    | .ok allData =>
      let final : Option (List Nat) :=
        match mostCommon allData with
        | [best] => some best
        | _ => none
      match markDivergent final (m2.devices.zip allData) with
      | .error e => (.error e, m2)
      | .ok ds' =>
        let m3 := { m2 with devices := ds' }
        match final with
        | some v => (.ok v, m3)
        | none => (.error .corruption, m3)

/-- The per-child write loop of `VirtualDeviceMirror.write_block`:
write to every online child, record `False` for the others. -/
def mirrorWriteChildren (bn : Nat) (data : List Nat) :
    List PhysicalDevice → Except Err (List (PhysicalDevice × Bool))
  | [] => .ok []
  | d :: rest =>
    if d.state.isOnlineMixin then
      match pWriteBlock d bn data with
      | .error e => .error e
      | .ok d' =>
        match mirrorWriteChildren bn data rest with
        | .error e => .error e
        | .ok rest' => .ok ((d', true) :: rest')
    else
      match mirrorWriteChildren bn data rest with
      | .error e => .error e
      | .ok rest' => .ok ((d, false) :: rest')

/-- `VirtualDeviceMirror.write_block`: size check, bring offline
children online, self-check, broadcast the write; on any per-child
failure append a write intent (the mirror path does not consult
`_skip_write_intents`), transition toward `Faulted` and fail. -/
def mirrorWriteBlock (m : VirtualDeviceMirror) (bn : Nat) (data : List Nat) :
    Except Err Bool × VirtualDeviceMirror :=
  if data.length ≠ m.blockSize then (.error .badSize, m)
  else
    let ds1 := m.devices.map fun d =>
      if ¬ d.state.isOnlineMixin then (pAttemptBringOnline d).1 else d
    let st1 := selfCheckState ds1 m.writeIntents m.state
    let m1 := { m with devices := ds1, state := st1 }
    match mirrorWriteChildren bn data m1.devices with
    | .error e => (.error e, m1)
    | .ok results =>
      let m2 := { m1 with devices := results.map Prod.fst }
      if ¬ (results.all fun r => r.2) then
        let m3 := { m2 with
          state := (vAttemptStateUpdate m2.state .faulted).1,
          writeIntents := m2.writeIntents ++ [(bn, data)] }
        (.ok false, m3)
      else (.ok true, m2)

/-- The drain loop of `VirtualDevice.attempt_bring_online`, with
Python's `for`-over-a-mutating-list semantics made explicit: the
iterator keeps its own index `i` into the current queue while
successful replays `pop(0)` the head.  `fuel` bounds the recursion
(the index grows every step). -/
def mirrorDrainIntents (m : VirtualDeviceMirror) (i fuel : Nat) :
    Except Err Unit × VirtualDeviceMirror :=
  match fuel with
  | 0 => (.ok (), m)
  | fuel + 1 =>
    match m.writeIntents.get? i with
    | none => (.ok (), m)
    | some (bn, data) =>
      match mirrorWriteBlock m bn data with
      | (.error e, m') => (.error e, m')
      | (.ok false, m') => (.ok (), m')
      | (.ok true, m') =>
        mirrorDrainIntents
          { m' with writeIntents := m'.writeIntents.drop 1 } (i + 1) fuel

/-- `VirtualDevice.attempt_bring_online` for a mirror: bring every
child online, self-check, replay queued intents under the
`_skip_write_intents` guard, self-check again and report whether the
final state is `Online`. -/
def mirrorAttemptBringOnline (m : VirtualDeviceMirror) :
    Except Err Bool × VirtualDeviceMirror :=
  let ds1 := m.devices.map fun d => (pAttemptBringOnline d).1
  let m1 := { m with devices := ds1 }
  let m2 := { m1 with state := selfCheckState m1.devices m1.writeIntents m1.state }
  let step : Except Err Unit × VirtualDeviceMirror :=
    if 0 < m2.writeIntents.length then
      let m3 := { m2 with skipWriteIntents := true }
      match mirrorDrainIntents m3 0 (m3.writeIntents.length + 1) with
      | (.error e, m4) => (.error e, m4)
      | (.ok (), m4) => (.ok (), { m4 with skipWriteIntents := false })
    else (.ok (), m2)
  match step with
  | (.error e, m4) => (.error e, m4)
  | (.ok (), m4) =>
    let m5 := { m4 with state := selfCheckState m4.devices m4.writeIntents m4.state }
    (.ok (decide (m5.state = .online)), m5)

/-! ## VirtualDeviceStripe (VirtualDevice.py) -/

/-- `VirtualDeviceStripe`: children concatenated; `blockNumberLookup`
is the prefix table `offsets[i] = Σ_{k<i} children[k].size/BS`. -/
structure VirtualDeviceStripe where
  devices : List PhysicalDevice
  blockSize : Nat
  size : Nat
  state : VState
  writeIntents : List (Nat × List Nat)
  skipWriteIntents : Bool
  blockNumberLookup : List Nat
  deriving DecidableEq, Repr

/-- `_find_device_and_local_block_number`: range check, then scan the
prefix table for the first entry exceeding the block number. -/
def stripeFindDevice (s : VirtualDeviceStripe) (bn : Nat) :
    Except Err (Nat × Nat) :=
  if s.size / s.blockSize ≤ bn then .error .outOfRange
  else
    match s.blockNumberLookup.findIdx? (fun b => bn < b) with
    | some i => .ok (i - 1, bn - s.blockNumberLookup.getD (i - 1) 0)
    | none =>
      .ok (s.blockNumberLookup.length - 1,
           bn - s.blockNumberLookup.getD (s.blockNumberLookup.length - 1) 0)

/-- `VirtualDeviceStripe.write_block`: size check, self-check,
resolve the child; bring an offline child online; delegate when
online, otherwise queue an intent (unless suppressed) and transition
toward `Faulted`. -/
def stripeWriteBlock (s : VirtualDeviceStripe) (bn : Nat) (data : List Nat) :
    Except Err Bool × VirtualDeviceStripe :=
  if data.length ≠ s.blockSize then (.error .badSize, s)
  else
    let s1 := { s with state := selfCheckState s.devices s.writeIntents s.state }
    match stripeFindDevice s1 bn with
    | .error e => (.error e, s1)
    | .ok (ci, lbn) =>
      match s1.devices.get? ci with
      | none => (.error .indexError, s1)
      | some d =>
        let d1 := if d.state.isOfflineMixin then (pAttemptBringOnline d).1 else d
        let s2 := { s1 with devices := s1.devices.set ci d1 }
        if d1.state.isOnlineMixin then
          match pWriteBlock d1 lbn data with
          | .error e => (.error e, s2)
          | .ok d2 => (.ok true, { s2 with devices := s2.devices.set ci d2 })
        else
          let intents' := if ¬ s2.skipWriteIntents
            then s2.writeIntents ++ [(bn, data)] else s2.writeIntents
          (.ok false, { s2 with
            writeIntents := intents',
            state := (vAttemptStateUpdate s2.state .faulted).1 })

/-- `VirtualDeviceStripe.read_block`: resolve the child, bring an
offline child online, delegate when online, else fail `NotOnline`. -/
def stripeReadBlock (s : VirtualDeviceStripe) (bn : Nat) :
    Except Err (List Nat) × VirtualDeviceStripe :=
  match stripeFindDevice s bn with
  | .error e => (.error e, s)
  | .ok (ci, lbn) =>
    match s.devices.get? ci with
    | none => (.error .indexError, s)
    | some d =>
      let d1 := if d.state.isOfflineMixin then (pAttemptBringOnline d).1 else d
      let s1 := { s with devices := s.devices.set ci d1 }
      if d1.state.isOnlineMixin then
        match pReadBlock d1 lbn with
        | .error e => (.error e, s1)
        | .ok v => (.ok v, s1)
      else (.error .notOnline, s1)

/-- `VirtualDevice.attempt_bring_online` for a stripe (same base
method; stripe `write_block` honours `_skip_write_intents`). -/
def stripeDrainIntents (s : VirtualDeviceStripe) (i fuel : Nat) :
    Except Err Unit × VirtualDeviceStripe :=
  match fuel with
  | 0 => (.ok (), s)
  | fuel + 1 =>
    match s.writeIntents.get? i with
    | none => (.ok (), s)
    | some (bn, data) =>
      match stripeWriteBlock s bn data with
      | (.error e, s') => (.error e, s')
      | (.ok false, s') => (.ok (), s')
      | (.ok true, s') =>
        stripeDrainIntents
          { s' with writeIntents := s'.writeIntents.drop 1 } (i + 1) fuel

/-- `VirtualDevice.attempt_bring_online` for a stripe. -/
def stripeAttemptBringOnline (s : VirtualDeviceStripe) :
    Except Err Bool × VirtualDeviceStripe :=
  let ds1 := s.devices.map fun d => (pAttemptBringOnline d).1
  let s1 := { s with devices := ds1 }
  let s2 := { s1 with state := selfCheckState s1.devices s1.writeIntents s1.state }
  let step : Except Err Unit × VirtualDeviceStripe :=
    if 0 < s2.writeIntents.length then
      let s3 := { s2 with skipWriteIntents := true }
      match stripeDrainIntents s3 0 (s3.writeIntents.length + 1) with
      | (.error e, s4) => (.error e, s4)
      | (.ok (), s4) => (.ok (), { s4 with skipWriteIntents := false })
    else (.ok (), s2)
  match step with
  | (.error e, s4) => (.error e, s4)
  | (.ok (), s4) =>
    let s5 := { s4 with state := selfCheckState s4.devices s4.writeIntents s4.state }
    (.ok (decide (s5.state = .online)), s5)

/-! ## Virtual devices as pool members -/

/-- A pool-level virtual device is a stripe or a mirror. -/
inductive VDev where
  | stripe (s : VirtualDeviceStripe)
  | mirror (m : VirtualDeviceMirror)
  deriving DecidableEq, Repr

instance : Inhabited VDev :=
  ⟨.stripe ⟨[], 0, 0, .offline, [], false, []⟩⟩

/-- `get_size`. -/
def vdevGetSize : VDev → Nat
  | .stripe s => s.size
  | .mirror m => m.size

/-- `get_block_size`. -/
def vdevGetBlockSize : VDev → Nat
  | .stripe s => s.blockSize
  | .mirror m => m.blockSize

/-- `write_block` dispatch. -/
def vdevWriteBlock (v : VDev) (bn : Nat) (data : List Nat) :
    Except Err Bool × VDev :=
  match v with
  | .stripe s =>
    let (r, s') := stripeWriteBlock s bn data
    (r, .stripe s')
  | .mirror m =>
    let (r, m') := mirrorWriteBlock m bn data
    (r, .mirror m')

/-- `read_block` dispatch. -/
def vdevReadBlock (v : VDev) (bn : Nat) :
    Except Err (List Nat) × VDev :=
  match v with
  | .stripe s =>
    let (r, s') := stripeReadBlock s bn
    (r, .stripe s')
  | .mirror m =>
    let (r, m') := mirrorReadBlock m bn
    (r, .mirror m')

/-! ## Snapshot (Snapshot.py) and StoragePool (StoragePool.py)

`Snapshot.__init__` runs `deepcopy(mapping)`.  Python's `deepcopy`
copies the two dicts together with their `Device` keys: every device
object the mapping references is replaced by a fresh clone, frozen at
capture time, and `Device` hashes and compares by object identity, so
a snapshot's mapping is keyed by clone objects distinct from the
pool's own vdevs (and the snapshot's reads resolve into those frozen
clones, not the live devices).

Device identity is modelled by `Nat` keys: the pool's vdev `i` is key
`i`; a snapshot's clones are keyed `cloneBase + i` with `cloneBase`
the pool's device count at capture, so clone keys never collide with
pool keys.  A cross-call detail not observable by any verified
property is dropped: state mutations of a frozen clone (e.g. a
bring-online attempt during a snapshot read) are not persisted into
the snapshot value. -/

/-- A snapshot: the deep-copied mapping re-keyed by clone
identities, plus the frozen clones themselves. -/
structure Snapshot where
  mapping : PVMapping
  cloneBase : Nat
  devices : List VDev
  deriving DecidableEq, Repr

/-- The effect of `deepcopy` on the mapping's device references:
the device keys of `p2v` and the device components of `v2p` move to
the fresh clones (memoisation makes both sides use the same clone). -/
def rekeyDevices (base : Nat) (m : PVMapping) : PVMapping :=
  ⟨m.p2v.map fun e => (base + e.1, e.2),
   m.v2p.map fun e => (e.1, (base + e.2.1, e.2.2))⟩

structure StoragePool where
  devices : List VDev
  blockSize : Nat
  size : Nat
  mapping : PVMapping
  snapshots : List Snapshot
  newBlockNumber : List Nat
  deriving DecidableEq, Repr

/-- `set.update(blocks)` on a list-backed set: append the members not
yet present, keeping order. -/
def setUpdate (s : List Nat) (bs : List Nat) : List Nat :=
  bs.foldl (fun a b => if b ∈ a then a else a ++ [b]) s

/-- One `physical_blocks_used[device].update(blocks)` step of
`_get_physical_blocks_used`: union `bs` into the set at index `dv`.
`physical_blocks_used` holds only the pool's own devices, so a
device key outside the pool's device list — every snapshot clone —
raises `KeyError`. -/
def addBlocks : List (List Nat) → Nat → List Nat →
    Except Err (List (List Nat))
  | [], _, _ => .error .keyError
  | s :: rest, 0, bs => .ok (setUpdate s bs :: rest)
  | s :: rest, dv + 1, bs =>
    match addBlocks rest dv bs with
    | .error e => .error e
    | .ok rest' => .ok (s :: rest')

/-- Accumulate one mapping's per-device usage sets. -/
def unionUsage (acc : List (List Nat)) (mp : PVMapping) :
    Except Err (List (List Nat)) :=
  (getPhysicalBlockUsageSets mp).foldl
    (fun a e =>
      match a with
      | .error err => .error err
      | .ok acc' => addBlocks acc' e.1 e.2)
    (.ok acc)

/-- `StoragePool._get_physical_blocks_used` (no filter): start from
an empty set per device and union the usage sets of the active
mapping and of every snapshot's mapping (whose clone keys make this
raise `KeyError` as soon as any snapshot holds a mapped block). -/
def getPhysicalBlocksUsed (p : StoragePool) : Except Err (List (List Nat)) :=
  (p.mapping :: p.snapshots.map Snapshot.mapping).foldl
    (fun a mp =>
      match a with
      | .error e => .error e
      | .ok acc => unionUsage acc mp)
    (.ok (p.devices.map fun _ => []))

/-- The block count of pool device `i`
(`min_device.get_size() // self._block_size`). -/
def numBlocksOf (p : StoragePool) (i : Nat) : Nat :=
  ((p.devices.get? i).map vdevGetSize).getD 0 / p.blockSize

/-- The scan behind `min(items, key=lambda x: x[1])`: track the best
count and its index, replacing only on a strictly smaller count, so
the first of equal minima wins. -/
def argminAux (best bestIdx i : Nat) : List Nat → Nat
  | [] => bestIdx
  | c :: rest =>
    if c < best then argminAux c i (i + 1) rest
    else argminAux best bestIdx (i + 1) rest

/-- Index of the first minimum
(`min(....items(), key=lambda x: x[1])[0]` keeps the first of equal
minima in iteration order). -/
def argminIdx (l : List Nat) : Nat :=
  argminAux (l.headD 0) 0 0 l

/-- The allocator scan of `_allocate_new_physical_block`: starting at
the cursor, advance (wrapping at `numBlocks`) while the block is in
use; `traversed_count > numBlocks` raises `PoolFull`.  The gas starts
at `numBlocks + 1` and decreases exactly as `traversed_count` grows,
so gas 0 coincides with the overflow check. -/
def allocScan (used : List Nat) (numBlocks : Nat) : Nat → Nat → Except Err Nat
  | _, 0 => .error .poolFull
  | nb, gas + 1 =>
    if nb ∈ used then
      let nb1 := nb + 1
      let nb2 := if numBlocks ≤ nb1 then 0 else nb1
      if gas = 0 then .error .poolFull
      else allocScan used numBlocks nb2 gas
    else .ok nb

/-- `StoragePool._allocate_new_physical_block`: pick the vdev with
the fewest reserved blocks (first wins on ties), scan from its cursor
for an unreserved block, advance the cursor past the choice
(wrapping), and return (device, block). -/
def allocateNewPhysicalBlock (p : StoragePool) :
    Except Err ((Nat × Nat) × StoragePool) :=
  match getPhysicalBlocksUsed p with
  | .error e => .error e
  | .ok used =>
    match p.devices with
    | [] => .error .valueError
    | _ :: _ =>
      let minIdx := argminIdx (used.map List.length)
      let numBlocks := numBlocksOf p minIdx
      let start := p.newBlockNumber.getD minIdx 0
      match allocScan (used.getD minIdx []) numBlocks start (numBlocks + 1) with
      | .error e => .error e
      | .ok nb =>
        let c1 := nb + 1
        let c2 := if numBlocks ≤ c1 then 0 else c1
        .ok ((minIdx, nb),
             { p with newBlockNumber := p.newBlockNumber.set minIdx c2 })

/-- `bytes2block_count`: `(bytes + BS - 1) // BS`. -/
def bytes2blockCount (p : StoragePool) (n : Nat) : Nat :=
  (n + p.blockSize - 1) / p.blockSize

/-- `read_virtual_block(vb, snapshot?)`: resolve through the chosen
mapping and delegate to the resolved device's `read_block`.  An
active-mapping read resolves into the pool's live vdevs; a snapshot
read resolves the clone key into the snapshot's frozen clones (the
source reads the deep-copied device object the snapshot mapping
references, never the live vdev). -/
def readVirtualBlock (p : StoragePool) (bn : Nat) (snap : Option Snapshot) :
    Except Err (List Nat) × StoragePool :=
  match snap with
  | none =>
    if ¬ checkVirtualBlock p.mapping bn then (.error .missing, p)
    else
      match getPhysicalBlock p.mapping bn with
      | none => (.error .missing, p)
      | some (di, pb) =>
        match p.devices.get? di with
        | none => (.error .indexError, p)
        | some dev =>
          let (r, dev') := vdevReadBlock dev pb
          (r, { p with devices := p.devices.set di dev' })
  | some s =>
    if ¬ checkVirtualBlock s.mapping bn then (.error .missing, p)
    else
      match getPhysicalBlock s.mapping bn with
      | none => (.error .missing, p)
      | some (di, pb) =>
        if di < s.cloneBase then (.error .indexError, p)
        else
          match s.devices.get? (di - s.cloneBase) with
          | none => (.error .indexError, p)
          | some dev => ((vdevReadBlock dev pb).1, p)

/-- `read_virtual_blocks(start, end)` reads the inclusive range. -/
def readVirtualBlocks (p : StoragePool) (start endB : Nat)
    (snap : Option Snapshot) : Except Err (List Nat) × StoragePool :=
  (List.range' start (endB + 1 - start)).foldl
    (fun acc i =>
      match acc with
      | (.error e, q) => (.error e, q)
      | (.ok bytes, q) =>
        match readVirtualBlock q i snap with
        | (.error e, q') => (.error e, q')
        | (.ok v, q') => (.ok (bytes ++ v), q'))
    (.ok [], p)

/-- `read_virtual_blocks_byte_count(start, n)`: the source computes
`end_block = start_block + bytes2block_count(n)` and passes it as the
inclusive end, then truncates to `n` bytes. -/
def readVirtualBlocksByteCount (p : StoragePool) (start n : Nat)
    (snap : Option Snapshot) : Except Err (List Nat) × StoragePool :=
  let endB := start + bytes2blockCount p n
  match readVirtualBlocks p start endB snap with
  | (.error e, q) => (.error e, q)
  | (.ok bytes, q) => (.ok (bytes.take n), q)

/-- `write_virtual_block(vb, data)`: range and size checks, allocate
a fresh slot, delegate the write, then enroll (fresh block) or update
(CoW overwrite) the active mapping. -/
def writeVirtualBlock (p : StoragePool) (bn : Nat) (data : List Nat) :
    Except Err Bool × StoragePool :=
  if p.size / p.blockSize ≤ bn then (.error .outOfRange, p)
  else if data.length ≠ p.blockSize then (.error .badSize, p)
  else
    match allocateNewPhysicalBlock p with
    | .error e => (.error e, p)
    | .ok ((di, pb), p1) =>
      match p1.devices.get? di with
      | none => (.error .indexError, p1)
      | some dev =>
        let (wres, dev') := vdevWriteBlock dev pb data
        let p2 := { p1 with devices := p1.devices.set di dev' }
        match wres with
        | .error e => (.error e, p2)
        | .ok false => (.ok false, p2)
        | .ok true =>
          if ¬ checkVirtualBlock p2.mapping bn then
            match enrollMapping p2.mapping di pb bn with
            | .error e => (.error e, p2)
            | .ok mp' => (.ok true, { p2 with mapping := mp' })
          else
            match updateMapping p2.mapping bn di pb with
            | .error e => (.error e, p2)
            | .ok (_, mp') => (.ok true, { p2 with mapping := mp' })

/-- The write loop of `write_virtual_blocks`: Python's
`all_successful = all_successful and self.write_virtual_block(...)`
short-circuits, so once a write fails the remaining blocks are not
written at all. -/
def writeBlocksLoop (p : StoragePool) (blocks : List (Nat × List Nat))
    (acc : Bool) : Except Err Bool × StoragePool :=
  match blocks with
  | [] => (.ok acc, p)
  | (bn, fragment) :: rest =>
    if acc then
      match writeVirtualBlock p bn fragment with
      | (.error e, q) => (.error e, q)
      | (.ok b, q) => writeBlocksLoop q rest b
    else writeBlocksLoop p rest false

/-- `write_virtual_blocks(start, data)`: the source always appends
`BS - len(data) % BS` zero bytes — a full extra zero block when the
length is already a multiple of BS — then writes the fragments
sequentially. -/
def writeVirtualBlocks (p : StoragePool) (start : Nat) (data : List Nat) :
    Except Err Bool × StoragePool :=
  let padLength := p.blockSize - data.length % p.blockSize
  let padded := data ++ List.replicate padLength 0
  let endB := start + padded.length / p.blockSize
  if p.size / p.blockSize < start then (.error .outOfRange, p)
  else if p.size / p.blockSize < endB then (.error .outOfRange, p)
  else
    writeBlocksLoop p
      ((List.range (endB - start)).map fun i =>
        (start + i, (padded.drop (i * p.blockSize)).take p.blockSize))
      true

/-- `free_virtual_block(vb)`: fail when the block is not in the
active mapping, else unenroll it from the active mapping only
(via `_free_physical_block` / `unenroll_mapping_physical`). -/
def freeVirtualBlock (p : StoragePool) (bn : Nat) :
    Except Err Unit × StoragePool :=
  if ¬ checkVirtualBlock p.mapping bn then (.error .missing, p)
  else
    match getPhysicalBlock p.mapping bn with
    | none => (.error .missing, p)
    | some (di, pb) =>
      match alistLookup p.mapping.p2v di with
      | none => (.error .keyError, p)
      | some dm =>
        match alistLookup dm pb with
        | none => (.error .keyError, p)
        | some vb' =>
          match unenrollMapping p.mapping vb' with
          | .error e => (.error e, p)
          | .ok mp' => (.ok (), { p with mapping := mp' })

/-- `capture_snapshot`: `Snapshot(self._mapping)` deep-copies the
active mapping — re-keying its device references by fresh clone
identities and freezing clones of the referenced vdevs — and the
snapshot is appended to the pool's list. -/
def captureSnapshot (p : StoragePool) : Snapshot × StoragePool :=
  let s : Snapshot := ⟨rekeyDevices p.devices.length p.mapping,
    p.devices.length, p.devices⟩
  (s, { p with snapshots := p.snapshots ++ [s] })

/-- `get_usage_stats`: (active, snapshot-exclusive, free). -/
def getUsageStats (p : StoragePool) : Nat × Nat × Nat :=
  let totalBlocks := p.size / p.blockSize
  let current := getVirtualBlockUsageSet p.mapping
  let snapBlocks := p.snapshots.foldl
    (fun acc s => setUpdate acc (getVirtualBlockUsageSet s.mapping)) []
  let exclusive := snapBlocks.filter fun b => ¬ b ∈ current
  (current.length, exclusive.length,
   totalBlocks - current.length - exclusive.length)

/-! ## Spec-side predicates and well-formedness -/

/-- A unique most-frequent value among a list of reads: `M` occurs,
and every other value occurs strictly less often. -/
def uniqueMajority (l : List (List Nat)) (M : List Nat) : Prop :=
  M ∈ l ∧ ∀ v ∈ l, v ≠ M → l.count v < l.count M

instance (l : List (List Nat)) (M : List Nat) :
    Decidable (uniqueMajority l M) := by
  unfold uniqueMajority; infer_instance

/-- One `v2p` entry is mirrored on the `p2v` side (the bidirectional
invariant every Python-reachable mapping maintains). -/
def mappingEntryOk (m : PVMapping) (e : Nat × Nat × Nat) : Bool :=
  match alistLookup m.p2v e.2.1 with
  | none => false
  | some dm => decide (alistLookup dm e.2.2 = some e.1)

/-- The virtual-to-physical side is consistent with the
physical-to-virtual side. -/
def MappingConsistent (m : PVMapping) : Prop :=
  ∀ e ∈ m.v2p, mappingEntryOk m e = true

instance (m : PVMapping) : Decidable (MappingConsistent m) := by
  unfold MappingConsistent; infer_instance

/-- The constructor invariants of `PhysicalDevice.__init__` for a
mirror child: shared block size, byte storage of `size` bytes,
`size % BS == 0`, positive block size. -/
def childWF (m : VirtualDeviceMirror) (d : PhysicalDevice) : Prop :=
  d.blockSize = m.blockSize ∧ d.data.length = d.size ∧
    d.size % d.blockSize = 0 ∧ 0 < d.blockSize

instance (m : VirtualDeviceMirror) (d : PhysicalDevice) :
    Decidable (childWF m d) := by
  unfold childWF; infer_instance

/-! ## Concrete example devices, mirrors and pools -/

/-- "HelloHello". -/
def helloBytes : List Nat := [72, 101, 108, 108, 111, 72, 101, 108, 108, 111]

/-- "WorldWorld". -/
def worldBytes : List Nat := [87, 111, 114, 108, 100, 87, 111, 114, 108, 100]

/-- "BadDataBad". -/
def badBytes : List Nat := [66, 97, 100, 68, 97, 116, 97, 66, 97, 100]

/-- A 10-byte single-block disk in the `Faulted` state. -/
def faultedDisk : PhysicalDevice := ⟨10, 10, List.replicate 10 7, .faulted⟩

/-- A 100-byte offline disk (10 blocks of 10 bytes). -/
def offlineDisk : PhysicalDevice := ⟨100, 10, List.replicate 100 0, .offline⟩

/-- A 100-byte online disk. -/
def onlineDisk : PhysicalDevice := ⟨100, 10, List.replicate 100 0, .online⟩

/-- A mapping binding virtual block 0 to (device 0, physical block
0); device 1 has no enrollments. -/
def exMapping : PVMapping := ⟨[(0, [(0, 0)])], [(0, (0, 0))]⟩

/-- A mirror of two offline children with two queued write intents
(the state after two failed writes, scenario S4). -/
def intentMirror : VirtualDeviceMirror :=
  ⟨[offlineDisk, offlineDisk], 10, 100, .faultedOffline,
   [(0, helloBytes), (1, worldBytes)], false⟩

/-- An online disk holding "HelloHello" in block 0 and "WorldWorld"
in block 1. -/
def goodDisk : PhysicalDevice :=
  ⟨100, 10,
   spliceData (spliceData (List.replicate 100 0) 0 helloBytes) 10 worldBytes,
   .online⟩

/-- Like `goodDisk` but with block 1 corrupted to "BadDataBad"
(scenario S1's `pd2`). -/
def corruptDisk : PhysicalDevice :=
  ⟨100, 10,
   spliceData (spliceData (List.replicate 100 0) 0 helloBytes) 10 badBytes,
   .online⟩

/-- The S1 three-way mirror after the manual corruption of one
child's block 1. -/
def s1Mirror : VirtualDeviceMirror :=
  ⟨[goodDisk, goodDisk, corruptDisk], 10, 100, .online, [], false⟩

/-- A stripe over a single online disk (scenario S3's vdev). -/
def soloStripe : VirtualDeviceStripe :=
  ⟨[onlineDisk], 10, 100, .online, [], false, [0]⟩

/-- An empty pool over the single-disk stripe. -/
def freshPool : StoragePool :=
  ⟨[.stripe soloStripe], 10, 100, ⟨[], []⟩, [], [0]⟩

/-- `freshPool` after one successful CoW write of "HelloHello" to
virtual block 0. -/
def oneBlockPool : StoragePool := (writeVirtualBlock freshPool 0 helloBytes).2

/-- The snapshot handle returned by capturing `oneBlockPool`. -/
def snapHandle : Snapshot := (captureSnapshot oneBlockPool).1

/-- `oneBlockPool` with that snapshot captured — scenario S2's shape
reduced to one vdev: a live snapshot holds a mapped block. -/
def snapPool : StoragePool := (captureSnapshot oneBlockPool).2

/-! ## Theorems -/

/-- C2: refuted on the code.  In a mapping where virtual block 0 is
mapped and the pair (device 1, physical block 0) is unmapped — both
preconditions of the documented `update_mapping` contract hold — the
update does not return the old pair and rebind: because device 1 has
no prior enrollments, `self._physical_to_virtual_map[new_device]`
raises a `KeyError`.  The CoW overwrite path of
`write_virtual_block` step 4 hits exactly this crash on a two-vdev
pool whose destination vdev was never enrolled. -/
theorem c2_update_fresh_device_keyerror :
    checkVirtualBlock exMapping 0 = true ∧
    checkPhysicalBlock exMapping 1 0 = false ∧
    updateMapping exMapping 0 1 0 = .error .keyError := by
  refine ⟨rfl, rfl, rfl⟩

/-- C3: refuted on the code.  A mirror with two queued intents whose
children all come online and whose queued writes all succeed does
not replay both intents: the drain loop iterates the intent list
while popping its head, so the iterator skips past the second intent.
Only the first intent is replayed, the queue retains the second, the
final self-check lands on `Faulted`, and the call returns `false`
rather than `true`/`Online`. -/
theorem c3_drain_skips_second_intent :
    (mirrorAttemptBringOnline intentMirror).1 = .ok false ∧
    (mirrorAttemptBringOnline intentMirror).2.writeIntents =
      [(1, worldBytes)] ∧
    (mirrorAttemptBringOnline intentMirror).2.state = .faulted ∧
    (mirrorAttemptBringOnline intentMirror).2.devices.map
      PhysicalDevice.state = [.online, .online] := by
  refine ⟨rfl, rfl, rfl, rfl⟩

/-- C4: refuted on the code.  Writing a payload whose length is
already a multiple of BS (10 bytes, BS = 10, so ⌈10/10⌉ = 1 block)
appends a full block of zero padding and writes two blocks: virtual
block 1 = start + ⌈len/BS⌉, which the claim says is never touched,
ends up mapped. -/
theorem c4_pads_whole_extra_block :
    (writeVirtualBlocks freshPool 0 helloBytes).1 = .ok true ∧
    getVirtualBlockUsageSet
      (writeVirtualBlocks freshPool 0 helloBytes).2.mapping = [0, 1] ∧
    checkVirtualBlock
      (writeVirtualBlocks freshPool 0 helloBytes).2.mapping 1 = true := by
  refine ⟨rfl, rfl, rfl⟩

/-- C5: refuted on the code.  With virtual block 0 mapped and
holding 10 bytes, reading 10 bytes from block 0 needs ⌈10/10⌉ = 1
block, and the claim says the call succeeds and never touches block
1; the source passes `start + ⌈n/BS⌉` as an inclusive end block, so
it also reads the unmapped block 1 and fails. -/
theorem c5_reads_one_extra_block :
    checkVirtualBlock oneBlockPool.mapping 0 = true ∧
    bytes2blockCount oneBlockPool 10 = 1 ∧
    (readVirtualBlock oneBlockPool 0 none).1 = .ok helloBytes ∧
    (readVirtualBlocksByteCount oneBlockPool 0 10 none).1 =
      .error .missing := by
  refine ⟨rfl, rfl, rfl, rfl⟩

/-- C7, counterexample: a device in the `Faulted` state — a state
other than `Online` — serves `read_block` successfully instead of
failing with NotOnline, because the source only rejects the exact
`Offline` state. -/
theorem c7_counterexample :
    faultedDisk.state ≠ PState.online ∧
    pReadBlock faultedDisk 0 = .ok (List.replicate 10 7) ∧
    pWriteBlock faultedDisk 0 (List.replicate 10 9) =
      .ok ⟨10, 10, List.replicate 10 9, .faulted⟩ := by
  refine ⟨by decide, rfl, rfl⟩

/-- C7, amended: for an in-range block, `read_block` and
`write_block` fail with NotOnline exactly when the state is the
exact `Offline` state; in every other state (`Online`, `Faulted`,
`FaultedOffline`, `Disconnected`) `read_block` returns the BS bytes
at offset i·BS and `write_block` overwrites them. -/
theorem c7_amended_offline_only (d : PhysicalDevice) (bn : Nat)
    (hbn : bn < d.size / d.blockSize) (data : List Nat)
    (hdata : data.length = d.blockSize) :
    (pReadBlock d bn = .error .notOnline ↔ d.state = .offline) ∧
    (pWriteBlock d bn data = .error .notOnline ↔ d.state = .offline) ∧
    (d.state ≠ .offline → pReadBlock d bn = .ok (pReadData d bn)) ∧
    (d.state ≠ .offline → pWriteBlock d bn data =
      .ok { d with data := spliceData d.data (bn * d.blockSize) data }) := by
  have hr : ¬ d.size / d.blockSize ≤ bn := Nat.not_le.2 hbn
  constructor
  · simp only [pReadBlock, if_neg hr]
    by_cases hs : d.state = .offline <;> simp [hs]
  constructor
  · simp only [pWriteBlock, hdata, if_neg hr]
    by_cases hs : d.state = .offline <;> simp [hs]
  constructor
  · intro hs
    simp [pReadBlock, if_neg hr, hs, pReadData]
  · intro hs
    simp [pWriteBlock, hdata, if_neg hr, hs]

/-- C7, amended, witness: the faulted single-block disk is in range
and is served. -/
theorem c7_amended_witness :
    0 < faultedDisk.size / faultedDisk.blockSize ∧
    (List.replicate 10 9).length = faultedDisk.blockSize ∧
    pReadBlock faultedDisk 0 = .ok (pReadData faultedDisk 0) :=
  ⟨by decide, by decide,
   (c7_amended_offline_only faultedDisk 0 (by decide)
     (List.replicate 10 9) (by decide)).2.2.1 (by decide)⟩

/-- C8, counterexample: `mark_faulted()` on a device in the
`Faulted` state does not leave the state `Faulted`: the code's else
branch requests `FaultedOffline`, which the transition table allows
from `Faulted`, so the state becomes `FaultedOffline`. -/
theorem c8_counterexample :
    faultedDisk.state = PState.faulted ∧
    (pMarkFaulted faultedDisk).1.state = PState.faultedOffline := by
  refine ⟨rfl, rfl⟩

/-- C8, amended: `mark_faulted()` requests `Faulted` when the state
is online and `FaultedOffline` in every other state (not only the
offline ones); constrained by the §4.1 table this yields
Online→Faulted, Offline→Offline (request rejected),
Disconnected→FaultedOffline, FaultedOffline→FaultedOffline, and in
particular Faulted→FaultedOffline. -/
theorem c8_amended_mark_faulted (d : PhysicalDevice) :
    pMarkFaulted d =
      (if d.state.isOnlineMixin then pTransitionState d .faulted
       else pTransitionState d .faultedOffline) ∧
    (pMarkFaulted d).1.state =
      (match d.state with
       | .online => PState.faulted
       | .offline => PState.offline
       | .faulted => PState.faultedOffline
       | .faultedOffline => PState.faultedOffline
       | .disconnected => PState.faultedOffline) := by
  obtain ⟨sz, bs, da, st⟩ := d
  exact ⟨rfl, by cases st <;> rfl⟩

/-! ## Association-list lemmas -/

lemma alistLookup_mem {α : Type} [DecidableEq α] {β : Type}
    {l : List (α × β)} {k : α} {v : β}
    (h : alistLookup l k = some v) : (k, v) ∈ l := by
  induction l with
  | nil => simp [alistLookup] at h
  | cons e rest ih =>
    obtain ⟨k1, v1⟩ := e
    by_cases hk : k1 = k
    · subst hk
      simp [alistLookup] at h
      subst h
      exact List.mem_cons_self _ _
    · simp [alistLookup, hk] at h
      exact List.mem_cons_of_mem _ (ih h)

lemma alistLookup_eq_none_of_not_mem {α : Type} [DecidableEq α] {β : Type}
    {l : List (α × β)} {k : α}
    (h : k ∉ l.map Prod.fst) : alistLookup l k = none := by
  induction l with
  | nil => rfl
  | cons e rest ih =>
    obtain ⟨k1, v1⟩ := e
    simp only [List.map_cons, List.mem_cons] at h
    push_neg at h
    have hk : ¬ k1 = k := fun hh => h.1 hh.symm
    simp [alistLookup, hk, ih h.2]

lemma alistLookup_erase_self {α : Type} [DecidableEq α] {β : Type}
    {l : List (α × β)} {k : α}
    (hnd : (l.map Prod.fst).Nodup) :
    alistLookup (alistErase l k) k = none := by
  induction l with
  | nil => rfl
  | cons e rest ih =>
    obtain ⟨k1, v1⟩ := e
    simp only [List.map_cons, List.nodup_cons] at hnd
    by_cases hk : k1 = k
    · subst hk
      simp only [alistErase, if_pos rfl]
      exact alistLookup_eq_none_of_not_mem hnd.1
    · simp [alistErase, hk, alistLookup, ih hnd.2]

lemma alistLookup_of_mem_nodup {α : Type} [DecidableEq α] {β : Type}
    {l : List (α × β)} {k : α} {v : β}
    (hnd : (l.map Prod.fst).Nodup) (h : (k, v) ∈ l) :
    alistLookup l k = some v := by
  induction l with
  | nil => simp at h
  | cons e rest ih =>
    obtain ⟨k1, v1⟩ := e
    simp only [List.map_cons, List.nodup_cons] at hnd
    rcases List.mem_cons.1 h with he | hr
    · rw [Prod.mk.injEq] at he
      simp [alistLookup, he.1.symm, he.2]
    · have hk : k1 ≠ k := by
        intro hk
        subst hk
        exact hnd.1 (List.mem_map_of_mem Prod.fst hr)
      simp [alistLookup, hk, ih hnd.2 hr]

/-! ## C9: freeing a block does not affect snapshot reads -/

/-- `read_virtual_block` through a snapshot resolves entirely inside
the snapshot's frozen mapping and clones: its value is the same for
any two pool states. -/
lemma readVirtualBlock_fst_congr (p q : StoragePool) (bn : Nat)
    (s : Snapshot) :
    (readVirtualBlock p bn (some s)).1 = (readVirtualBlock q bn (some s)).1 := by
  unfold readVirtualBlock
  by_cases hc : checkVirtualBlock s.mapping bn
  · cases hg : getPhysicalBlock s.mapping bn with
    | none => simp [hc, hg]
    | some dp =>
      obtain ⟨di, pb⟩ := dp
      simp only [hc, not_true, if_neg, hg]
      by_cases hb : di < s.cloneBase
      · simp [hb]
      · cases s.devices.get? (di - s.cloneBase) with
        | none => simp [hb]
        | some dev => simp [hb]
  · simp [hc]

/-- C9 (confirmed): with the Python dict invariants (unique keys,
two-sided consistency), freeing a virtual block that is mapped both
actively and in a snapshot's mapping succeeds, removes the block
from the active mapping only — devices and the snapshot list are
untouched — and a subsequent snapshot read returns exactly what it
returned before the free. -/
theorem c9_free_frames_snapshot (p : StoragePool) (s : Snapshot) (bn : Nat)
    (hnd : (p.mapping.v2p.map Prod.fst).Nodup)
    (hcons : MappingConsistent p.mapping)
    (hs : checkVirtualBlock s.mapping bn = true)
    (ha : checkVirtualBlock p.mapping bn = true) :
    ∃ p', freeVirtualBlock p bn = (.ok (), p') ∧
      checkVirtualBlock p'.mapping bn = false ∧
      p'.devices = p.devices ∧ p'.snapshots = p.snapshots ∧
      (readVirtualBlock p' bn (some s)).1 =
        (readVirtualBlock p bn (some s)).1 := by
  obtain ⟨dp, hdp⟩ := Option.isSome_iff_exists.1 ha
  obtain ⟨di, pb⟩ := dp
  have hmem : (bn, (di, pb)) ∈ p.mapping.v2p := alistLookup_mem hdp
  have hok := hcons _ hmem
  unfold mappingEntryOk at hok
  cases hdm : alistLookup p.mapping.p2v di with
  | none => rw [hdm] at hok; simp at hok
  | some dm =>
    rw [hdm] at hok
    have hdmpb : alistLookup dm pb = some bn := by
      simpa using hok
    refine ⟨{ p with mapping :=
      ⟨alistInsert p.mapping.p2v di (alistErase dm pb),
       alistErase p.mapping.v2p bn⟩ }, ?_, ?_, rfl, rfl, ?_⟩
    · unfold freeVirtualBlock
      simp only [ha, not_true, if_neg, getPhysicalBlock, hdp, hdm, hdmpb,
        unenrollMapping]
      simp
    · unfold checkVirtualBlock
      simp [alistLookup_erase_self hnd]
    · exact readVirtualBlock_fst_congr _ p bn s

/-- C9, witness: scenario S3's pool shape — one block written, a
snapshot captured, the block freed, and the snapshot read
undisturbed. -/
theorem c9_witness :
    ∃ p', freeVirtualBlock snapPool 0 = (.ok (), p') ∧
      checkVirtualBlock p'.mapping 0 = false ∧
      p'.devices = snapPool.devices ∧ p'.snapshots = snapPool.snapshots ∧
      (readVirtualBlock p' 0 (some snapHandle)).1 =
        (readVirtualBlock snapPool 0 (some snapHandle)).1 :=
  c9_free_frames_snapshot snapPool snapHandle 0
    (by decide) (by decide) (by decide) (by decide)

/-! ## C1: snapshot reservation accounting crashes with KeyError -/

/-- C1: refuted on the code (the spec records the intent; the code
has a slip).  `Snapshot.__init__`'s deepcopy re-keys the snapshot
mapping by fresh device clones, which are not keys of the
`physical_blocks_used` dict built over the pool's own vdevs, so as
soon as a live snapshot holds any mapped block,
`_get_physical_blocks_used` — and with it every allocation — raises
`KeyError` instead of computing the (active ∪ snapshots) reservation
union.  Scenario S2's post-snapshot write therefore fails with
KeyError, not PoolFull (the unexercised `test2` asserts the PoolFull
message "All blocks in use.").  Concretely: the captured snapshot
holds virtual block 0, the reservation computation and the next CoW
write crash with the KeyError, while the same write without the
snapshot succeeds. -/
theorem c1_snapshot_reservation_keyerror :
    getVirtualBlockUsageSet snapHandle.mapping = [0] ∧
    getPhysicalBlocksUsed snapPool = .error .keyError ∧
    (writeVirtualBlock snapPool 0 worldBytes).1 = .error .keyError ∧
    getPhysicalBlocksUsed oneBlockPool = .ok [[0]] ∧
    (writeVirtualBlock oneBlockPool 0 worldBytes).1 = .ok true := by
  refine ⟨rfl, rfl, rfl, rfl, rfl⟩

/-! ## C6/C10: the frequency dictionary and majority vote -/

lemma alistLookup_insert_self {α : Type} [DecidableEq α] {β : Type}
    (l : List (α × β)) (k : α) (v : β) :
    alistLookup (alistInsert l k v) k = some v := by
  induction l with
  | nil => simp [alistInsert, alistLookup]
  | cons e rest ih =>
    obtain ⟨k1, v1⟩ := e
    by_cases hk : k1 = k
    · simp [alistInsert, hk, alistLookup]
    · simp [alistInsert, hk, alistLookup, ih]

lemma alistLookup_insert_ne {α : Type} [DecidableEq α] {β : Type}
    (l : List (α × β)) (k k' : α) (v : β) (h : k' ≠ k) :
    alistLookup (alistInsert l k v) k' = alistLookup l k' := by
  have hke : ¬ k = k' := fun hh => h hh.symm
  induction l with
  | nil =>
    simp [alistInsert, alistLookup, hke]
  | cons e rest ih =>
    obtain ⟨k1, v1⟩ := e
    by_cases hk : k1 = k
    · subst hk
      simp [alistInsert, alistLookup, hke]
    · by_cases hk' : k1 = k'
      · subst hk'
        simp [alistInsert, hk, alistLookup]
      · simp [alistInsert, hk, alistLookup, hk', ih]

lemma map_fst_alistInsert {α : Type} [DecidableEq α] {β : Type}
    (l : List (α × β)) (k : α) (v : β) :
    (alistInsert l k v).map Prod.fst =
      if k ∈ l.map Prod.fst then l.map Prod.fst
      else l.map Prod.fst ++ [k] := by
  induction l with
  | nil => simp [alistInsert]
  | cons e rest ih =>
    obtain ⟨k1, v1⟩ := e
    by_cases hk : k1 = k
    · subst hk
      simp [alistInsert]
    · have hne : ¬ k = k1 := fun hh => hk hh.symm
      by_cases hm : k ∈ rest.map Prod.fst
      · simp [alistInsert, hk, ih, hm, hne]
      · simp [alistInsert, hk, ih, hm, hne]

lemma nodup_alistInsert {α : Type} [DecidableEq α] {β : Type}
    (l : List (α × β)) (k : α) (v : β)
    (h : (l.map Prod.fst).Nodup) :
    ((alistInsert l k v).map Prod.fst).Nodup := by
  rw [map_fst_alistInsert]
  by_cases hm : k ∈ l.map Prod.fst
  · simpa [hm] using h
  · rw [if_neg hm]
    refine List.Nodup.append h (List.nodup_singleton k) ?_
    intro a ha hb
    simp only [List.mem_singleton] at hb
    subst hb
    exact hm ha

lemma freqFold_lookup : ∀ (rest seen : List (List Nat))
    (acc : List (List Nat × Nat)),
    (∀ x, alistLookup acc x =
      if x ∈ seen then some (seen.count x) else none) →
    ∀ x, alistLookup
      (rest.foldl
        (fun fl v => alistInsert fl v ((alistLookup fl v).getD 0 + 1)) acc) x =
      if x ∈ seen ++ rest then some ((seen ++ rest).count x) else none := by
  intro rest
  induction rest with
  | nil =>
    intro seen acc hinv x
    simpa using hinv x
  | cons v rest' ih =>
    intro seen acc hinv x
    rw [List.foldl_cons]
    have hstep : ∀ y,
        alistLookup (alistInsert acc v ((alistLookup acc v).getD 0 + 1)) y =
        if y ∈ seen ++ [v] then some ((seen ++ [v]).count y) else none := by
      intro y
      by_cases hy : y = v
      · subst hy
        rw [alistLookup_insert_self, hinv y]
        by_cases hm : y ∈ seen
        · simp [hm, List.count_append]
        · simp [hm, List.count_append, List.count_eq_zero.2 hm]
      · rw [alistLookup_insert_ne _ _ _ _ hy, hinv y]
        have hc : (seen ++ [v]).count y = seen.count y := by
          simp [List.count_append, List.count_singleton', hy]
        rw [hc]
        by_cases hm2 : y ∈ seen
        · simp [hm2]
        · simp [hm2, hy]
    have := ih (seen ++ [v]) _ hstep x
    simpa [List.append_assoc] using this

lemma freqList_lookup (l : List (List Nat)) (x : List Nat) :
    alistLookup (freqList l) x =
      if x ∈ l then some (l.count x) else none := by
  have h0 : ∀ y, alistLookup ([] : List (List Nat × Nat)) y =
      if y ∈ ([] : List (List Nat)) then some (List.count y []) else none := by
    intro y; simp [alistLookup]
  simpa using freqFold_lookup l [] [] h0 x

lemma freqList_nodup (l : List (List Nat)) :
    ((freqList l).map Prod.fst).Nodup := by
  unfold freqList
  suffices h : ∀ (rest : List (List Nat)) (acc : List (List Nat × Nat)),
      (acc.map Prod.fst).Nodup →
      ((rest.foldl
        (fun fl v => alistInsert fl v ((alistLookup fl v).getD 0 + 1))
        acc).map Prod.fst).Nodup by
    exact h l [] (by simp)
  intro rest
  induction rest with
  | nil => intro acc h; exact h
  | cons v rest' ih =>
    intro acc h
    rw [List.foldl_cons]
    exact ih _ (nodup_alistInsert _ _ _ h)

lemma mem_freqList_iff (l : List (List Nat)) (v : List Nat) (c : Nat) :
    (v, c) ∈ freqList l ↔ (v ∈ l ∧ c = l.count v) := by
  constructor
  · intro h
    have hl := alistLookup_of_mem_nodup (freqList_nodup l) h
    rw [freqList_lookup] at hl
    by_cases hv : v ∈ l
    · rw [if_pos hv] at hl
      exact ⟨hv, (Option.some.injEq _ _ ▸ hl).symm⟩
    · rw [if_neg hv] at hl
      cases hl
  · rintro ⟨hv, rfl⟩
    exact alistLookup_mem (by rw [freqList_lookup, if_pos hv])

lemma mem_map_fst_freqList (l : List (List Nat)) (v : List Nat) :
    v ∈ (freqList l).map Prod.fst ↔ v ∈ l := by
  simp only [List.mem_map]
  constructor
  · rintro ⟨e, he, rfl⟩
    have : (e.1, e.2) ∈ freqList l := by simpa using he
    exact ((mem_freqList_iff _ _ _).1 this).1
  · intro hv
    exact ⟨(v, l.count v), (mem_freqList_iff _ _ _).2 ⟨hv, rfl⟩, rfl⟩

lemma freqList_length_ne_one (l : List (List Nat)) (a b : List Nat)
    (ha : a ∈ l) (hb : b ∈ l) (hab : a ≠ b) :
    (freqList l).length ≠ 1 := by
  intro h1
  obtain ⟨e, he⟩ := List.length_eq_one.1 h1
  have hma := (mem_map_fst_freqList l a).2 ha
  have hmb := (mem_map_fst_freqList l b).2 hb
  rw [he] at hma hmb
  simp at hma hmb
  exact hab (hma.trans hmb.symm)

lemma freqList_ne_nil (l : List (List Nat)) (a : List Nat) (ha : a ∈ l) :
    freqList l ≠ [] := by
  intro hemp
  have := (mem_map_fst_freqList l a).2 ha
  rw [hemp] at this
  simp at this

lemma init_le_foldl_max : ∀ (l : List Nat) (a : Nat), a ≤ l.foldl Nat.max a := by
  intro l
  induction l with
  | nil => intro a; exact Nat.le_refl a
  | cons c rest ih =>
    intro a
    exact Nat.le_trans (Nat.le_max_left a c) (ih (Nat.max a c))

lemma le_foldl_max : ∀ (l : List Nat) (a x : Nat), x ∈ l →
    x ≤ l.foldl Nat.max a := by
  intro l
  induction l with
  | nil => intro a x hx; simp at hx
  | cons c rest ih =>
    intro a x hx
    rcases List.mem_cons.1 hx with rfl | hx'
    · exact Nat.le_trans (Nat.le_max_right a x) (init_le_foldl_max rest _)
    · exact ih _ _ hx'

lemma foldl_max_le : ∀ (l : List Nat) (a m : Nat), a ≤ m →
    (∀ x ∈ l, x ≤ m) → l.foldl Nat.max a ≤ m := by
  intro l
  induction l with
  | nil => intro a m ha _; exact ha
  | cons c rest ih =>
    intro a m ha h
    exact ih _ _ (Nat.max_le.2 ⟨ha, h c (List.mem_cons_self _ _)⟩)
      fun x hx => h x (List.mem_cons_of_mem _ hx)

lemma maxFreq_eq_count (l : List (List Nat)) (M : List Nat)
    (hM : uniqueMajority l M) :
    maxFreq (freqList l) = l.count M := by
  unfold maxFreq
  apply Nat.le_antisymm
  · apply foldl_max_le _ _ _ (Nat.zero_le _)
    intro c hc
    obtain ⟨e, he, rfl⟩ := List.mem_map.1 hc
    have h2 := (mem_freqList_iff l e.1 e.2).1 (by simpa using he)
    rcases eq_or_ne e.1 M with h1 | h1
    · rw [h2.2, h1]
    · exact Nat.le_of_lt (h2.2 ▸ hM.2 e.1 h2.1 h1)
  · exact le_foldl_max _ _ _
      (List.mem_map.2 ⟨(M, l.count M), (mem_freqList_iff _ _ _).2 ⟨hM.1, rfl⟩, rfl⟩)

lemma count_eq_one_of_nodup_keys
    (l : List (List Nat × Nat)) (e : List Nat × Nat)
    (hnd : (l.map Prod.fst).Nodup) (he : e ∈ l) : l.count e = 1 := by
  induction l with
  | nil => simp at he
  | cons h rest ih =>
    simp only [List.map_cons, List.nodup_cons] at hnd
    rcases List.mem_cons.1 he with rfl | he'
    · have hnr : e ∉ rest := fun hmem =>
        hnd.1 (List.mem_map_of_mem Prod.fst hmem)
      rw [List.count_cons_self, List.count_eq_zero.2 hnr]
    · have hne : e ≠ h := by
        rintro rfl
        exact hnd.1 (List.mem_map_of_mem Prod.fst he')
      rw [List.count_cons_of_ne hne, ih hnd.2 he']

lemma filter_eq_singleton (pr : List Nat × Nat → Bool) :
    ∀ (l : List (List Nat × Nat)) (a : List Nat × Nat), a ∈ l → l.count a = 1 →
    (∀ x ∈ l, (pr x = true ↔ x = a)) → l.filter pr = [a] := by
  intro l
  induction l with
  | nil => intro a ha; simp at ha
  | cons h rest ih =>
    intro a ha hc huniq
    by_cases hha : h = a
    · subst hha
      rw [List.filter_cons_of_pos ((huniq h (List.mem_cons_self _ _)).2 rfl)]
      have hc0 : rest.count h = 0 := by
        rw [List.count_cons_self] at hc
        omega
      have hfil : rest.filter pr = [] := by
        rw [List.filter_eq_nil]
        intro x hx hpx
        exact List.count_eq_zero.1 hc0
          (((huniq x (List.mem_cons_of_mem _ hx)).1 hpx) ▸ hx)
      rw [hfil]
    · have ha' : a ∈ rest := by
        rcases List.mem_cons.1 ha with rfl | h'
        · exact absurd rfl hha
        · exact h'
      have hpr : ¬ pr h = true := fun hp =>
        hha ((huniq h (List.mem_cons_self _ _)).1 hp)
      rw [List.filter_cons_of_neg hpr]
      refine ih a ha' ?_ fun x hx => huniq x (List.mem_cons_of_mem _ hx)
      rw [List.count_cons_of_ne (fun hh => hha hh.symm)] at hc
      exact hc

lemma mostCommon_eq_singleton_of_unique (l : List (List Nat)) (M : List Nat)
    (hM : uniqueMajority l M) : mostCommon l = [M] := by
  have hmem : (M, l.count M) ∈ freqList l :=
    (mem_freqList_iff _ _ _).2 ⟨hM.1, rfl⟩
  have hfil : (freqList l).filter
      (fun e => decide (e.2 = maxFreq (freqList l))) = [(M, l.count M)] := by
    apply filter_eq_singleton _ _ _ hmem
      (count_eq_one_of_nodup_keys _ _ (freqList_nodup l) hmem)
    intro e he
    have h2 := (mem_freqList_iff l e.1 e.2).1 (by simpa using he)
    simp only [decide_eq_true_eq]
    constructor
    · intro hp
      rw [maxFreq_eq_count l M hM] at hp
      by_cases h1 : e.1 = M
      · have : e = (e.1, e.2) := rfl
        rw [this, h1, h2.2, h1]
      · exact absurd (h2.2 ▸ hp ▸ hM.2 e.1 h2.1 h1) (lt_irrefl _)
    · intro he'
      rw [he']
      simp [maxFreq_eq_count l M hM]
  show ((freqList l).filter fun e => decide (e.2 = maxFreq (freqList l))).map
      Prod.fst = [M]
  rw [hfil]
  rfl

lemma uniqueMajority_of_mostCommon (l : List (List Nat)) (x : List Nat)
    (h : mostCommon l = [x]) : uniqueMajority l x := by
  have h' : ((freqList l).filter
      (fun e => decide (e.2 = maxFreq (freqList l)))).map Prod.fst = [x] := h
  cases hf : (freqList l).filter
      (fun e => decide (e.2 = maxFreq (freqList l))) with
  | nil => rw [hf] at h'; simp at h'
  | cons e rest =>
    rw [hf] at h'
    simp only [List.map_cons, List.cons.injEq] at h'
    obtain ⟨hex, hrest⟩ := h'
    have hrest' : rest = [] := List.map_eq_nil.1 hrest
    have hemem : e ∈ (freqList l).filter
        (fun e => decide (e.2 = maxFreq (freqList l))) := by
      rw [hf]; exact List.mem_cons_self _ _
    have he := List.mem_filter.1 hemem
    have h2 := (mem_freqList_iff l e.1 e.2).1 (by simpa using he.1)
    have hmax : e.2 = maxFreq (freqList l) := by
      simpa using he.2
    refine ⟨hex ▸ h2.1, ?_⟩
    intro v hv hvx
    have hvfl : (v, l.count v) ∈ freqList l :=
      (mem_freqList_iff _ _ _).2 ⟨hv, rfl⟩
    have hle : l.count v ≤ maxFreq (freqList l) :=
      le_foldl_max _ _ _ (List.mem_map.2 ⟨(v, l.count v), hvfl, rfl⟩)
    rcases Nat.lt_or_ge (l.count v) (maxFreq (freqList l)) with hlt | hge
    · have hcx : l.count x = maxFreq (freqList l) := by
        rw [← hex, ← h2.2, hmax]
      rw [hcx]
      exact hlt
    · exfalso
      have heq : l.count v = maxFreq (freqList l) := Nat.le_antisymm hle hge
      have : (v, l.count v) ∈ (freqList l).filter
          (fun e => decide (e.2 = maxFreq (freqList l))) :=
        List.mem_filter.2 ⟨hvfl, by simpa using heq⟩
      rw [hf, hrest'] at this
      simp only [List.mem_singleton] at this
      exact hvx (by rw [← hex, ← this])

/-! ## C6/C10: device-level helper lemmas -/

lemma pReadBlock_ok (d : PhysicalDevice) (bn : Nat)
    (h1 : bn < d.size / d.blockSize) (h2 : d.state ≠ .offline) :
    pReadBlock d bn = .ok (pReadData d bn) := by
  unfold pReadBlock pReadData
  rw [if_neg (Nat.not_le.2 h1), if_neg h2]

lemma pWriteBlock_ok (d : PhysicalDevice) (bn : Nat) (data : List Nat)
    (hlen : data.length = d.blockSize)
    (h1 : bn < d.size / d.blockSize) (h2 : d.state ≠ .offline) :
    pWriteBlock d bn data =
      .ok { d with data := spliceData d.data (bn * d.blockSize) data } := by
  unfold pWriteBlock
  rw [if_neg (by rw [hlen]; exact fun h => h rfl),
    if_neg (Nat.not_le.2 h1), if_neg h2]

lemma readChildren_ok (bn : Nat) : ∀ ds : List PhysicalDevice,
    (∀ d ∈ ds, bn < d.size / d.blockSize ∧ d.state ≠ .offline) →
    readChildren bn ds = .ok (ds.map fun d => pReadData d bn) := by
  intro ds
  induction ds with
  | nil => intro _; rfl
  | cons d rest ih =>
    intro h
    have hd := h d (List.mem_cons_self _ _)
    unfold readChildren
    rw [pReadBlock_ok d bn hd.1 hd.2,
      ih fun d' hd' => h d' (List.mem_cons_of_mem _ hd')]
    rfl

lemma pMarkFaulted_fields (d : PhysicalDevice) :
    (pMarkFaulted d).1.size = d.size ∧
    (pMarkFaulted d).1.blockSize = d.blockSize ∧
    (pMarkFaulted d).1.data = d.data := by
  unfold pMarkFaulted pTransitionState
  by_cases h : d.state.isOnlineMixin <;> simp [h]

lemma pMarkFaulted_state (d : PhysicalDevice) (h : d.state ≠ .offline) :
    (pMarkFaulted d).1.state.isFaultedMixin = true ∧
    (pMarkFaulted d).2 = true ∧
    (pMarkFaulted d).1.state ≠ .offline ∧
    (pMarkFaulted d).1.state ≠ .online := by
  obtain ⟨sz, bs, da, st⟩ := d
  cases st with
  | online => exact ⟨rfl, rfl, nofun, nofun⟩
  | offline => exact absurd rfl h
  | faulted => exact ⟨rfl, rfl, nofun, nofun⟩
  | faultedOffline => exact ⟨rfl, rfl, nofun, nofun⟩
  | disconnected => exact ⟨rfl, rfl, nofun, nofun⟩

lemma pReadData_mark (d : PhysicalDevice) (bn : Nat) :
    pReadData (pMarkFaulted d).1 bn = pReadData d bn := by
  have h := pMarkFaulted_fields d
  unfold pReadData
  rw [h.2.1, h.2.2]

lemma zip_map_self {α β : Type} (f : α → β) : ∀ l : List α,
    l.zip (l.map f) = l.map fun a => (a, f a) := by
  intro l
  induction l with
  | nil => rfl
  | cons a rest ih => simp [ih]

lemma forall₂_map_self {α β : Type} (P : α → β → Prop) (f : α → β) :
    ∀ l : List α, (∀ a ∈ l, P a (f a)) → List.Forall₂ P l (l.map f) := by
  intro l
  induction l with
  | nil => intro _; exact List.Forall₂.nil
  | cons a rest ih =>
    intro h
    exact List.Forall₂.cons (h a (List.mem_cons_self _ _))
      (ih fun a' ha' => h a' (List.mem_cons_of_mem _ ha'))

lemma markDivergent_eq (final : Option (List Nat)) :
    ∀ pairs : List (PhysicalDevice × List Nat),
    (∀ e ∈ pairs, e.1.state ≠ PState.offline) →
    markDivergent final pairs = .ok (pairs.map fun e =>
      if some e.2 ≠ final then (pMarkFaulted e.1).1 else e.1) := by
  intro pairs
  induction pairs with
  | nil => intro _; rfl
  | cons e rest ih =>
    intro h
    obtain ⟨d, v⟩ := e
    have hd := h (d, v) (List.mem_cons_self _ _)
    have hrest := ih fun e' he' => h e' (List.mem_cons_of_mem _ he')
    by_cases hv : some v ≠ final
    · have hsucc := (pMarkFaulted_state d hd).2.1
      unfold markDivergent
      rw [if_pos hv, hrest]
      simp [hsucc, hv]
    · have hv' : some v = final := not_not.1 hv
      unfold markDivergent
      rw [if_neg hv, hrest]
      simp [hv']

lemma repairChild_false_eq (bn : Nat) (best : List Nat) (d : PhysicalDevice)
    (h1 : bn < d.size / d.blockSize) (h2 : d.state ≠ .offline) :
    repairChild bn best false d =
      .ok (if pReadData d bn ≠ best then (pMarkFaulted d).1 else d, true) := by
  unfold repairChild
  rw [pReadBlock_ok d bn h1 h2]
  by_cases hv : pReadData d bn ≠ best
  · simp [hv]
  · simp [hv]

lemma repairLoop_false_eq (bn : Nat) (best : List Nat) :
    ∀ ds : List PhysicalDevice,
    (∀ d ∈ ds, bn < d.size / d.blockSize ∧ d.state ≠ .offline) →
    repairLoop bn best false ds =
      .ok (ds.map fun d =>
        if pReadData d bn ≠ best then (pMarkFaulted d).1 else d, true) := by
  intro ds
  induction ds with
  | nil => intro _; rfl
  | cons d rest ih =>
    intro h
    have hd := h d (List.mem_cons_self _ _)
    unfold repairLoop
    rw [repairChild_false_eq bn best d hd.1 hd.2,
      ih fun d' hd' => h d' (List.mem_cons_of_mem _ hd')]
    rfl

/-! ## C6/C10: `check_integrity` characterized on divergent reads -/

lemma checkIntegrity_false_majority (m : VirtualDeviceMirror) (bn : Nat)
    (M : List Nat)
    (hread : ∀ d ∈ m.devices, bn < d.size / d.blockSize ∧ d.state ≠ .offline)
    (hdiv : ∃ d1 ∈ m.devices, ∃ d2 ∈ m.devices,
      pReadData d1 bn ≠ pReadData d2 bn)
    (hM : uniqueMajority (m.devices.map fun d => pReadData d bn) M) :
    checkIntegrity m bn false =
      (.ok false,
       { m with state := (vMarkFaulted m.state).1,
                devices := m.devices.map fun d =>
                  if pReadData d bn ≠ M then (pMarkFaulted d).1 else d }) := by
  obtain ⟨d1, h1, d2, h2, h12⟩ := hdiv
  have hne1 : ¬ ((freqList (m.devices.map fun d => pReadData d bn)).length = 1) :=
    freqList_length_ne_one _ _ _ (List.mem_map_of_mem _ h1)
      (List.mem_map_of_mem _ h2) h12
  have hflne : freqList (m.devices.map fun d => pReadData d bn) ≠ [] :=
    freqList_ne_nil _ _ (List.mem_map_of_mem _ h1)
  unfold checkIntegrity
  rw [readChildren_ok bn m.devices hread]
  simp only [hne1, if_false, if_neg]
  rw [mostCommon_eq_singleton_of_unique _ M hM]
  cases hfl : freqList (m.devices.map fun d => pReadData d bn) with
  | nil => exact absurd hfl hflne
  | cons e fr =>
    simp only []
    rw [repairLoop_false_eq bn M m.devices hread]
    rfl

lemma checkIntegrity_false_noMajority (m : VirtualDeviceMirror) (bn : Nat)
    (hread : ∀ d ∈ m.devices, bn < d.size / d.blockSize ∧ d.state ≠ .offline)
    (hdiv : ∃ d1 ∈ m.devices, ∃ d2 ∈ m.devices,
      pReadData d1 bn ≠ pReadData d2 bn)
    (hnoM : ∀ x, mostCommon (m.devices.map fun d => pReadData d bn) ≠ [x]) :
    checkIntegrity m bn false =
      (.ok false, { m with state := (vMarkFaulted m.state).1 }) := by
  obtain ⟨d1, h1, d2, h2, h12⟩ := hdiv
  have hne1 : ¬ ((freqList (m.devices.map fun d => pReadData d bn)).length = 1) :=
    freqList_length_ne_one _ _ _ (List.mem_map_of_mem _ h1)
      (List.mem_map_of_mem _ h2) h12
  have hflne : freqList (m.devices.map fun d => pReadData d bn) ≠ [] :=
    freqList_ne_nil _ _ (List.mem_map_of_mem _ h1)
  unfold checkIntegrity
  rw [readChildren_ok bn m.devices hread]
  simp only [hne1, if_false, if_neg]
  cases hfl : freqList (m.devices.map fun d => pReadData d bn) with
  | nil => exact absurd hfl hflne
  | cons e fr =>
    cases hmc : mostCommon (m.devices.map fun d => pReadData d bn) with
    | nil => rfl
    | cons x xs =>
      cases xs with
      | nil => exact absurd hmc (hnoM x)
      | cons y ys => rfl

/-- C6 (confirmed): reading a mirror block whose readable replicas
disagree.  With a unique most-frequent value M, `read_block` returns
M, every divergent child ends in a faulted state (`Faulted` or
`FaultedOffline`), agreeing children are completely untouched, and a
child is faulted afterwards exactly when it diverged or was already
faulted; with no unique most-frequent value the read fails with
Corruption. -/
theorem c6_mirror_majority_read (m : VirtualDeviceMirror) (bn : Nat)
    (hread : ∀ d ∈ m.devices, bn < d.size / d.blockSize ∧ d.state ≠ .offline)
    (hdiv : ∃ d1 ∈ m.devices, ∃ d2 ∈ m.devices,
      pReadData d1 bn ≠ pReadData d2 bn) :
    (∀ M, uniqueMajority (m.devices.map fun d => pReadData d bn) M →
      ∃ m', mirrorReadBlock m bn = (.ok M, m') ∧
        List.Forall₂ (fun d d' =>
          (pReadData d bn ≠ M → d'.state.isFaultedMixin = true) ∧
          (pReadData d bn = M → d' = d) ∧
          (d'.state.isFaultedMixin = true ↔
            (pReadData d bn ≠ M ∨ d.state.isFaultedMixin = true)))
          m.devices m'.devices) ∧
    ((¬ ∃ M, uniqueMajority (m.devices.map fun d => pReadData d bn) M) →
      (mirrorReadBlock m bn).1 = .error .corruption) := by
  constructor
  · intro M hM
    have hci := checkIntegrity_false_majority m bn M hread hdiv hM
    -- the once-marked device list
    set marked := m.devices.map fun d =>
      if pReadData d bn ≠ M then (pMarkFaulted d).1 else d with hmarked
    have hmk_read : ∀ d, pReadData
        (if pReadData d bn ≠ M then (pMarkFaulted d).1 else d) bn =
        pReadData d bn := by
      intro d
      by_cases hd : pReadData d bn ≠ M
      · rw [if_pos hd, pReadData_mark]
      · rw [if_neg hd]
    have hread' : ∀ d' ∈ marked, bn < d'.size / d'.blockSize ∧
        d'.state ≠ .offline := by
      intro d' hd'
      rw [hmarked] at hd'
      obtain ⟨d, hd, rfl⟩ := List.mem_map.1 hd'
      by_cases hdd : pReadData d bn ≠ M
      · rw [if_pos hdd]
        have hf := pMarkFaulted_fields d
        have hs := pMarkFaulted_state d (hread d hd).2
        rw [hf.1, hf.2.1]
        exact ⟨(hread d hd).1, hs.2.2.1⟩
      · rw [if_neg hdd]
        exact hread d hd
    have hreads_eq : (marked.map fun d => pReadData d bn) =
        m.devices.map fun d => pReadData d bn := by
      rw [hmarked, List.map_map]
      exact List.map_congr_left fun d _ => hmk_read d
    have hmc : mostCommon (marked.map fun d => pReadData d bn) = [M] := by
      rw [hreads_eq]
      exact mostCommon_eq_singleton_of_unique _ M hM
    have hoff' : ∀ e ∈ marked.map fun d => (d, pReadData d bn),
        e.1.state ≠ PState.offline := by
      intro e he
      obtain ⟨d', hd', rfl⟩ := List.mem_map.1 he
      exact (hread' d' hd').2
    have hmark := markDivergent_eq (some M)
      (marked.map fun d => (d, pReadData d bn)) hoff'
    unfold mirrorReadBlock
    rw [hci]
    simp only []
    rw [readChildren_ok bn marked hread']
    simp only [hmc]
    rw [zip_map_self (fun d => pReadData d bn) marked, hmark]
    simp only []
    refine ⟨_, rfl, ?_⟩
    simp only [List.map_map, hmarked, List.map_map]
    apply forall₂_map_self
    intro d hd
    have hdoff := (hread d hd).2
    by_cases hdm : pReadData d bn = M
    · constructor
      · intro hc; exact absurd hdm hc
      constructor
      · intro _
        simp [Function.comp, hdm]
      · simp [Function.comp, hdm]
    · have hs1 := pMarkFaulted_state d hdoff
      have hs2 := pMarkFaulted_state (pMarkFaulted d).1 hs1.2.2.1
      constructor
      · intro _
        simp [Function.comp, hdm, pReadData_mark, hs2.1]
      constructor
      · intro hc; exact absurd hc hdm
      · simp [Function.comp, hdm, pReadData_mark, hs2.1]
  · intro hno
    have hnoM : ∀ x,
        mostCommon (m.devices.map fun d => pReadData d bn) ≠ [x] :=
      fun x hx => hno ⟨x, uniqueMajority_of_mostCommon _ x hx⟩
    have hci := checkIntegrity_false_noMajority m bn hread hdiv hnoM
    have hoff' : ∀ e ∈ m.devices.map fun d => (d, pReadData d bn),
        e.1.state ≠ PState.offline := by
      intro e he
      obtain ⟨d', hd', rfl⟩ := List.mem_map.1 he
      exact (hread d' hd').2
    have hmark := markDivergent_eq none
      (m.devices.map fun d => (d, pReadData d bn)) hoff'
    unfold mirrorReadBlock
    rw [hci]
    simp only []
    rw [readChildren_ok bn m.devices hread]
    simp only []
    cases hmc : mostCommon (m.devices.map fun d => pReadData d bn) with
    | nil =>
      rw [zip_map_self (fun d => pReadData d bn) m.devices, hmark]
    | cons x xs =>
      cases xs with
      | nil => exact absurd hmc (hnoM x)
      | cons y ys =>
        rw [zip_map_self (fun d => pReadData d bn) m.devices, hmark]

/-- C6, witness: scenario S1's three-way mirror at block 1, where
one child holds "BadDataBad" against the majority "WorldWorld". -/
theorem c6_witness :
    ∃ m', mirrorReadBlock s1Mirror 1 = (.ok worldBytes, m') ∧
      List.Forall₂ (fun d d' =>
        (pReadData d 1 ≠ worldBytes → d'.state.isFaultedMixin = true) ∧
        (pReadData d 1 = worldBytes → d' = d) ∧
        (d'.state.isFaultedMixin = true ↔
          (pReadData d 1 ≠ worldBytes ∨ d.state.isFaultedMixin = true)))
        s1Mirror.devices m'.devices :=
  (c6_mirror_majority_read s1Mirror 1 (by decide) (by decide)).1
    worldBytes (by decide)

/-! ## C10: the repair path never returns a child to Online -/

lemma block_bytes_le (d : PhysicalDevice) (bn : Nat)
    (h1 : bn < d.size / d.blockSize) (h2 : d.size % d.blockSize = 0)
    (h3 : d.data.length = d.size) :
    bn * d.blockSize + d.blockSize ≤ d.data.length := by
  have hdvd : d.blockSize ∣ d.size := Nat.dvd_of_mod_eq_zero h2
  have h4 : (bn + 1) * d.blockSize ≤ (d.size / d.blockSize) * d.blockSize :=
    Nat.mul_le_mul_right _ (Nat.succ_le_of_lt h1)
  rw [Nat.div_mul_cancel hdvd, Nat.add_mul, Nat.one_mul] at h4
  rw [h3]
  exact h4

lemma readData_of_splice (data best : List Nat) (off k : Nat)
    (hk : best.length = k)
    (hle : off + best.length ≤ data.length) :
    ((spliceData data off best).drop off).take k = best := by
  unfold spliceData
  have hlen : (data.take off).length = off := by
    rw [List.length_take]
    omega
  rw [List.append_assoc, List.drop_left' hlen, List.take_left' hk]

lemma repairChild_true_eq (bn : Nat) (best : List Nat) (d : PhysicalDevice)
    (h1 : bn < d.size / d.blockSize) (h2 : d.state ≠ .offline)
    (hw1 : d.data.length = d.size) (hw2 : d.size % d.blockSize = 0)
    (hlen : best.length = d.blockSize) :
    repairChild bn best true d =
      .ok (if pReadData d bn ≠ best
           then { (pMarkFaulted d).1 with
                  data := spliceData d.data (bn * d.blockSize) best }
           else d, true) := by
  have hf := pMarkFaulted_fields d
  have hs := pMarkFaulted_state d h2
  unfold repairChild
  rw [pReadBlock_ok d bn h1 h2]
  by_cases hv : pReadData d bn ≠ best
  · simp only [if_pos hv]
    cases hmk : pMarkFaulted d with
    | mk dm succ =>
      rw [hmk] at hf hs
      cases dm with
      | mk sz bs da st =>
        simp only at hf hs
        obtain ⟨hsz, hbs, hda⟩ := hf
        subst hsz
        subst hbs
        subst hda
        rw [pWriteBlock_ok ⟨d.size, d.blockSize, d.data, st⟩ bn best
          hlen h1 hs.2.2.1]
        simp only []
        have hrd : pReadData
            ⟨d.size, d.blockSize,
             spliceData d.data (bn * d.blockSize) best, st⟩ bn = best :=
          readData_of_splice d.data best (bn * d.blockSize) d.blockSize hlen
            (by rw [hlen]; exact block_bytes_le d bn h1 hw2 hw1)
        rw [pReadBlock_ok
          ⟨d.size, d.blockSize, spliceData d.data (bn * d.blockSize) best, st⟩
          bn h1 hs.2.2.1, hrd]
        simp [hv]
  · simp only [if_neg hv]
    simp [not_not.1 hv]

lemma pReadData_length (d : PhysicalDevice) (bn : Nat)
    (h1 : bn < d.size / d.blockSize) (h2 : d.size % d.blockSize = 0)
    (h3 : d.data.length = d.size) :
    (pReadData d bn).length = d.blockSize := by
  unfold pReadData
  rw [List.length_take, List.length_drop]
  have := block_bytes_le d bn h1 h2 h3
  omega

lemma repairLoop_true_eq (bn : Nat) (best : List Nat) :
    ∀ ds : List PhysicalDevice,
    (∀ d ∈ ds, bn < d.size / d.blockSize ∧ d.state ≠ .offline) →
    (∀ d ∈ ds, d.data.length = d.size ∧ d.size % d.blockSize = 0 ∧
      best.length = d.blockSize) →
    repairLoop bn best true ds =
      .ok (ds.map fun d =>
        if pReadData d bn ≠ best
        then { (pMarkFaulted d).1 with
               data := spliceData d.data (bn * d.blockSize) best }
        else d, true) := by
  intro ds
  induction ds with
  | nil => intro _ _; rfl
  | cons d rest ih =>
    intro h hw
    have hd := h d (List.mem_cons_self _ _)
    have hwd := hw d (List.mem_cons_self _ _)
    unfold repairLoop
    rw [repairChild_true_eq bn best d hd.1 hd.2 hwd.1 hwd.2.1 hwd.2.2,
      ih (fun d' hd' => h d' (List.mem_cons_of_mem _ hd'))
        (fun d' hd' => hw d' (List.mem_cons_of_mem _ hd'))]
    rfl

lemma checkIntegrity_true_majority (m : VirtualDeviceMirror) (bn : Nat)
    (M : List Nat)
    (hwf : ∀ d ∈ m.devices, childWF m d)
    (hread : ∀ d ∈ m.devices, bn < d.size / d.blockSize ∧ d.state ≠ .offline)
    (hdiv : ∃ d1 ∈ m.devices, ∃ d2 ∈ m.devices,
      pReadData d1 bn ≠ pReadData d2 bn)
    (hM : uniqueMajority (m.devices.map fun d => pReadData d bn) M) :
    checkIntegrity m bn true =
      (.ok true,
       { m with state := (vMarkFaulted m.state).1,
                devices := m.devices.map fun d =>
                  if pReadData d bn ≠ M
                  then { (pMarkFaulted d).1 with
                         data := spliceData d.data (bn * d.blockSize) M }
                  else d }) := by
  obtain ⟨d1, h1, d2, h2, h12⟩ := hdiv
  have hne1 : ¬ ((freqList (m.devices.map fun d => pReadData d bn)).length = 1) :=
    freqList_length_ne_one _ _ _ (List.mem_map_of_mem _ h1)
      (List.mem_map_of_mem _ h2) h12
  have hflne : freqList (m.devices.map fun d => pReadData d bn) ≠ [] :=
    freqList_ne_nil _ _ (List.mem_map_of_mem _ h1)
  have hMlen : M.length = m.blockSize := by
    obtain ⟨dM, hdM, hMeq⟩ := List.mem_map.1 hM.1
    have hwd := hwf dM hdM
    rw [← hMeq,
      pReadData_length dM bn (hread dM hdM).1 hwd.2.2.1 hwd.2.1]
    exact hwd.1
  have hw' : ∀ d ∈ m.devices, d.data.length = d.size ∧
      d.size % d.blockSize = 0 ∧ M.length = d.blockSize := by
    intro d hd
    have hwd := hwf d hd
    exact ⟨hwd.2.1, hwd.2.2.1, by rw [hMlen, hwd.1]⟩
  unfold checkIntegrity
  rw [readChildren_ok bn m.devices hread]
  simp only [hne1, if_false, if_neg]
  rw [mostCommon_eq_singleton_of_unique _ M hM]
  cases hfl : freqList (m.devices.map fun d => pReadData d bn) with
  | nil => exact absurd hfl hflne
  | cons e fr =>
    simp only []
    rw [repairLoop_true_eq bn M m.devices hread hw']
    rfl

/-- C10 (confirmed, implicit behaviour): when a mirror's
`check_integrity(i, repair=true)` detects divergent readable
children, has a unique majority value M, and succeeds (returns
true), every child that held a divergent replica is left in a
faulted state (`Faulted` or `FaultedOffline`) even though its data
was repaired to M — the repair path never returns a child to
`Online`; agreeing children are untouched. -/
theorem c10_repair_keeps_children_faulted (m : VirtualDeviceMirror)
    (bn : Nat)
    (hwf : ∀ d ∈ m.devices, childWF m d)
    (hread : ∀ d ∈ m.devices, bn < d.size / d.blockSize ∧ d.state ≠ .offline)
    (hdiv : ∃ d1 ∈ m.devices, ∃ d2 ∈ m.devices,
      pReadData d1 bn ≠ pReadData d2 bn)
    (M : List Nat)
    (hM : uniqueMajority (m.devices.map fun d => pReadData d bn) M) :
    ∃ m', checkIntegrity m bn true = (.ok true, m') ∧
      List.Forall₂ (fun d d' =>
        (pReadData d bn ≠ M →
          d'.state.isFaultedMixin = true ∧ d'.state ≠ PState.online ∧
          pReadData d' bn = M) ∧
        (pReadData d bn = M → d' = d)) m.devices m'.devices := by
  refine ⟨_, checkIntegrity_true_majority m bn M hwf hread hdiv hM, ?_⟩
  apply forall₂_map_self
  intro d hd
  by_cases hdm : pReadData d bn = M
  · refine ⟨fun hc => absurd hdm hc, fun _ => ?_⟩
    rw [if_neg (by simpa using hdm)]
  · refine ⟨fun _ => ?_, fun hc => absurd hc hdm⟩
    rw [if_pos hdm]
    have hs := pMarkFaulted_state d (hread d hd).2
    have hbs := (pMarkFaulted_fields d).2.1
    have hwd := hwf d hd
    refine ⟨hs.1, hs.2.2.2, ?_⟩
    show (((spliceData d.data (bn * d.blockSize) M).drop
      (bn * (pMarkFaulted d).1.blockSize)).take
        (pMarkFaulted d).1.blockSize) = M
    rw [hbs]
    have hl : M.length = d.blockSize := by
      obtain ⟨dM, hdM, hMeq⟩ := List.mem_map.1 hM.1
      have hwdM := hwf dM hdM
      rw [← hMeq, pReadData_length dM bn (hread dM hdM).1
        hwdM.2.2.1 hwdM.2.1, hwdM.1, hwd.1]
    exact readData_of_splice d.data M (bn * d.blockSize) d.blockSize hl
      (by rw [hl]; exact block_bytes_le d bn (hread d hd).1 hwd.2.2.1 hwd.2.1)

/-- C10, witness: repairing block 1 of scenario S1's mirror succeeds
and leaves the divergent child faulted even though its data now
matches the majority. -/
theorem c10_witness :
    ∃ m', checkIntegrity s1Mirror 1 true = (.ok true, m') ∧
      List.Forall₂ (fun d d' =>
        (pReadData d 1 ≠ worldBytes →
          d'.state.isFaultedMixin = true ∧ d'.state ≠ PState.online ∧
          pReadData d' 1 = worldBytes) ∧
        (pReadData d 1 = worldBytes → d' = d)) s1Mirror.devices m'.devices :=
  c10_repair_keeps_children_faulted s1Mirror 1 (by decide) (by decide)
    (by decide) worldBytes (by decide)

end CowFS
